import Mathlib

/-!
Kusina live server: authentication core.

A shallow embedding of the backend's account service
(`controllers/authController.js`), token helper (`utils/jwt.js`), auth
middleware (`middleware/auth.js`), error handler
(`middleware/errorHandler.js`), user schema (`models/User.js`), user
controller (`controllers/userController.js`) and admin router
(`routes/adminRoutes.js`), and of the pure computations of the client pages
(`pages/RecipesPage.jsx`, `pages/RecipeDetail.jsx`,
`components/RequireAdmin.jsx`), followed by theorems about them.

Conventions of the embedding:

* A JavaScript string is a Lean `String`; `.length` is counted in UTF-16
  code units (`jsLength`).
* Third-party dependencies (bcryptjs, the signing primitive of
  jsonwebtoken, the case mapping of the JavaScript runtime) are fields of a
  `Lib` record that every operation takes as its first argument.
* The MongoDB collection behind the `User` model is a list of records; the
  schema's setters, validators and unique index are applied by `User.create`.
* Everything a handler reads from its surroundings (clock, fresh salt, fresh
  object id, `process.env`) is an explicit argument.
* A body field is a `JsVal` when `String(...)` converts it; `RawVal` adds the
  objects for which `String(...)` throws, and `signupRaw` and `loginRaw` are
  the handlers on bodies that may hold such fields.
-/

namespace Kusina

/-! ## JavaScript strings and values -/

/-- White space and line terminators stripped by `String.prototype.trim`. -/
def isJsSpace (c : Char) : Bool :=
  let n := c.toNat
  n == 0x09 || n == 0x0A || n == 0x0B || n == 0x0C || n == 0x0D || n == 0x20
    || n == 0xA0 || n == 0x1680 || (0x2000 ≤ n && n ≤ 0x200A)
    || n == 0x2028 || n == 0x2029 || n == 0x202F || n == 0x205F
    || n == 0x3000 || n == 0xFEFF

/-- Strip trailing white space from a list of characters. -/
def trimEndChars : List Char → List Char
  | [] => []
  | c :: cs =>
    match trimEndChars cs with
    | [] => if isJsSpace c then [] else [c]
    | r => c :: r

/-- The method `s.trim()`. -/
def jsTrim (s : String) : String :=
  String.mk (trimEndChars (s.data.dropWhile isJsSpace))

/-- The property `s.length`: the number of UTF-16 code units. -/
def jsLength (s : String) : Nat :=
  (s.data.map (fun c => if c.toNat < 0x10000 then 1 else 2)).sum

/-- The method `s.startsWith(p)`. -/
def jsStartsWith (s p : String) : Bool :=
  p.data.isPrefixOf s.data

/-- The method `s.slice(n)` for an `n` that does not split a surrogate pair
(the only use is `slice(7)` after a seven-character ASCII head). -/
def jsSlice (s : String) (n : Nat) : String :=
  String.mk (s.data.drop n)

/-- A value found in a parsed JSON request body that `String(...)` converts,
or `undefined` for a field that is not there.  `num` is an integer that
`String(...)` prints digit by digit (exactly representable, below `1e21` in
size); `other` stands for every remaining truthy value that `String(...)`
converts (an array, an object, any other number) together with what
`String(...)` makes of it.  An object whose conversion throws is a
`RawVal.unconvertible`. -/
inductive JsVal where
  | undefined
  | null
  | bool (b : Bool)
  | num (n : Int)
  | str (s : String)
  | other (rendered : String)
  deriving Repr, DecidableEq

/-- JavaScript truthiness. -/
def JsVal.truthy : JsVal → Bool
  | .undefined => false
  | .null => false
  | .bool b => b
  | .num n => n != 0
  | .str s => s != ""
  | .other _ => true

/-- The conversion `String(v)` of a value that it converts. -/
def JsVal.toStr : JsVal → String
  | .undefined => "undefined"
  | .null => "null"
  | .bool b => if b then "true" else "false"
  | .num n => toString n
  | .str s => s
  | .other r => r

/-- The idiom `String(v || "")` on a value that `String(...)` converts; on
every value of a body it is `stringOrThrow`. -/
def strOrEmpty (v : JsVal) : String :=
  if v.truthy then v.toStr else ""

/-- A parsed JSON object: `req.body`. -/
abbrev JsObj := List (String × JsVal)

/-- Property access `obj.key`, `undefined` when the key is not there. -/
def JsObj.get (o : JsObj) (key : String) : JsVal :=
  match o.find? (fun kv => kv.1 == key) with
  | some kv => kv.2
  | none => .undefined

/-! ## Dependencies -/

/-- Identifier of a stored document (`_id`). -/
abbrev ObjectId := Nat

/-- Claims carried by a bearer token: the payload given to `jwt.sign` plus
the issued-at and expires-at stamps (in seconds). -/
structure Claims where
  userId : ObjectId
  role : String
  iat : Nat
  exp : Nat
  deriving Repr, DecidableEq

/-- The third-party functions the backend calls. -/
structure Lib where
  /-- The method `String.prototype.toLowerCase`. -/
  toLowerCase : String → String
  /-- The call `bcrypt.hash(password, salt)`. -/
  bcryptHash : String → String → String
  /-- The call `bcrypt.compare(password, hash)`. -/
  bcryptCompare : String → String → Bool
  /-- How jsonwebtoken reads an `expiresIn` string, in seconds; `none` when
  it is not a time span. -/
  timespan : String → Option Nat
  /-- Serialise and sign claims with a secret. -/
  jwsEncode : Claims → String → String
  /-- Parse a compact token and check its signature against a secret. -/
  jwsDecode : String → String → Option Claims

/-- An error object, as thrown and as handed to `next(err)`. -/
structure JsError where
  name : String
  message : String
  code : Option Nat
  deriving Repr, DecidableEq

/-- The part of `process.env` the backend reads. -/
structure ProcessEnv where
  JWT_SECRET : Option String
  JWT_EXPIRES_IN : Option String
  deriving Repr, DecidableEq

/-- The call `jwt.sign(payload, secret, { expiresIn })` at time `now`:
rejects an `expiresIn` that is not a time span, otherwise stamps the payload
and signs it. -/
def jwtSign (L : Lib) (userId : ObjectId) (role : String) (secret expiresIn : String)
    (now : Nat) : Except JsError String :=
  match L.timespan expiresIn with
  | none =>
    .error { name := "Error",
             message := "expiresIn should be a number of seconds or string representing a timespan",
             code := none }
  | some t =>
    .ok (L.jwsEncode { userId := userId, role := role, iat := now, exp := now + t } secret)

/-- The call `jwt.verify(token, secret)` at time `now`: throws on a token
that is malformed or wrongly signed, and on one whose expiry has passed. -/
def jwtVerify (L : Lib) (token secret : String) (now : Nat) : Except JsError Claims :=
  match L.jwsDecode token secret with
  | none => .error { name := "JsonWebTokenError", message := "invalid token", code := none }
  | some c =>
    if now < c.exp then .ok c
    else .error { name := "TokenExpiredError", message := "jwt expired", code := none }

/-! ## utils/jwt.js -/

/-- The function `signToken(payload)` of `utils/jwt.js`, for a payload
`{ userId, role }`. -/
def signToken (L : Lib) (env : ProcessEnv) (now : Nat) (userId : ObjectId) (role : String) :
    Except JsError String :=
  match env.JWT_SECRET with
  | none => .error { name := "Error", message := "JWT_SECRET missing in backend/.env", code := none }
  | some secret =>
    if secret == "" then
      .error { name := "Error", message := "JWT_SECRET missing in backend/.env", code := none }
    else
      let expiresIn :=
        match env.JWT_EXPIRES_IN with
        | none => "7d"
        | some e => if e == "" then "7d" else e
      jwtSign L userId role secret expiresIn now

/-! ## models/User.js -/

/-- A document of the `User` collection. -/
structure User where
  _id : ObjectId
  username : String
  email : String
  passwordHash : String
  role : String
  favorites : List String
  savedList : List String
  createdAt : Nat
  updatedAt : Nat
  deriving Repr, DecidableEq

/-- The `User` collection. -/
abbrev Db := List User

/-- The fields handed to `User.create`. -/
structure NewUser where
  username : String
  email : String
  passwordHash : String
  role : String
  deriving Repr, DecidableEq

/-- Setters of the `username` path: `trim: true`. -/
def usernameSetter (s : String) : String := jsTrim s

/-- Setters of the `email` path, in the order declared: `trim: true`,
`lowercase: true`. -/
def emailSetter (L : Lib) (s : String) : String := L.toLowerCase (jsTrim s)

/-- Validators of the schema, run on the fields after the setters:
`required` on username, email and passwordHash, `minlength: 2` and
`maxlength: 30` on username, `enum: ["user", "admin"]` on role. -/
def schemaValid (f : NewUser) : Bool :=
  f.username != "" && 2 ≤ jsLength f.username && jsLength f.username ≤ 30
    && f.email != "" && f.passwordHash != ""
    && (f.role == "user" || f.role == "admin")

/-- The error a failed schema validation throws. -/
def validationError : JsError :=
  { name := "ValidationError", message := "User validation failed", code := none }

/-- The error the server raises for a violated unique index. -/
def duplicateKeyError : JsError :=
  { name := "MongoServerError", message := "E11000 duplicate key error collection", code := some 11000 }

/-- The query `User.findOne({ email })`; the filter value is cast through the
setters of the path before matching. -/
def User.findOne (L : Lib) (db : Db) (email : String) : Option User :=
  db.find? (fun u => u.email == emailSetter L email)

/-- The query `User.findById(id)`. -/
def User.findById (db : Db) (id : ObjectId) : Option User :=
  db.find? (fun u => u._id == id)

/-- The call `User.create(fields)` at time `now` with the fresh identifier
`oid`: apply the setters, validate, then insert under the unique indexes on
`_id` and `email`.  Returns the inserted document and the new collection. -/
def User.create (L : Lib) (now : Nat) (oid : ObjectId) (db : Db) (f : NewUser) :
    Except JsError (User × Db) :=
  let g : NewUser :=
    { username := usernameSetter f.username, email := emailSetter L f.email,
      passwordHash := f.passwordHash, role := f.role }
  if !schemaValid g then .error validationError
  else if db.any (fun u => u._id == oid || u.email == g.email) then .error duplicateKeyError
  else
    let doc : User :=
      { _id := oid, username := g.username, email := g.email, passwordHash := g.passwordHash,
        role := g.role, favorites := [], savedList := [], createdAt := now, updatedAt := now }
    .ok (doc, db ++ [doc])

/-! ## HTTP responses -/

/-- A JSON document sent to the client. -/
inductive Json where
  | null
  | bool (b : Bool)
  | num (n : Int)
  | str (s : String)
  | arr (items : List Json)
  | obj (fields : List (String × Json))
  deriving Repr

/-- What `res.status(code).json(body)` sends; `res.json(body)` alone sends
status 200. -/
structure Response where
  status : Nat
  body : Json
  deriving Repr

/-- The reply `res.status(code).json({ message })`. -/
def reply (code : Nat) (message : String) : Response :=
  { status := code, body := .obj [("message", .str message)] }

/-- The body `{ token, user: { id, username, email, role } }` built by signup
and login from the token and the document. -/
def authBody (token : String) (user : User) : Json :=
  .obj [("token", .str token),
        ("user", .obj [("id", .num user._id), ("username", .str user.username),
                       ("email", .str user.email), ("role", .str user.role)])]

/-! ## controllers/authController.js -/

/-- The function `normalizeEmail(email)`. -/
def normalizeEmail (L : Lib) (email : JsVal) : String :=
  L.toLowerCase (jsTrim (strOrEmpty email))

/-- What a request draws from its surroundings: the clock, the salt
`bcrypt.genSalt` returns and the identifier the driver generates. -/
structure Ctx where
  now : Nat
  salt : String
  oid : ObjectId
  deriving Repr, DecidableEq

/-- An awaited call made by a controller, in the order made. -/
inductive Op where
  | findOne (email : String)
  | genSalt (rounds : Nat)
  | hash (password salt : String)
  | create (fields : NewUser)
  | compare (password hash : String)
  | signToken (userId : ObjectId) (role : String)
  deriving Repr, DecidableEq

/-- How a controller ends: with a response, or with `next(err)`. -/
inductive Outcome where
  | responded (r : Response)
  | forwarded (e : JsError)
  deriving Repr

/-- A finished controller call: its end, the collection it leaves and the
calls it made. -/
structure Run where
  outcome : Outcome
  db : Db
  ops : List Op
  deriving Repr

/-- The status of the response, when the controller sent one itself. -/
def Run.status (r : Run) : Option Nat :=
  match r.outcome with
  | .responded p => some p.status
  | .forwarded _ => none

/-- The handler `exports.signup` on a body whose fields `String(...)`
converts; on every body it is `signupRaw`. -/
def signup (L : Lib) (env : ProcessEnv) (cx : Ctx) (db : Db) (body : JsObj) : Run :=
  let username := jsTrim (strOrEmpty (body.get "username"))
  let email := normalizeEmail L (body.get "email")
  let password := strOrEmpty (body.get "password")
  if username == "" || email == "" || password == "" then
    { outcome := .responded (reply 400 "username, email, and password are required."),
      db := db, ops := [] }
  else if jsLength password < 6 then
    { outcome := .responded (reply 400 "Password must be at least 6 characters."),
      db := db, ops := [] }
  else
    match User.findOne L db email with
    | some _ =>
      { outcome := .responded (reply 409 "Email is already registered."),
        db := db, ops := [.findOne email] }
    | none =>
      let passwordHash := L.bcryptHash password cx.salt
      let fields : NewUser :=
        { username := username, email := email, passwordHash := passwordHash, role := "user" }
      let ops := [Op.findOne email, .genSalt 10, .hash password cx.salt, .create fields]
      match User.create L cx.now cx.oid db fields with
      | .error e => { outcome := .forwarded e, db := db, ops := ops }
      | .ok (user, db1) =>
        match signToken L env cx.now user._id user.role with
        | .error e =>
          { outcome := .forwarded e, db := db1, ops := ops ++ [.signToken user._id user.role] }
        | .ok token =>
          { outcome := .responded { status := 201, body := authBody token user },
            db := db1, ops := ops ++ [.signToken user._id user.role] }

/-- The handler `exports.login` on a body whose fields `String(...)`
converts; on every body it is `loginRaw`. -/
def login (L : Lib) (env : ProcessEnv) (cx : Ctx) (db : Db) (body : JsObj) : Run :=
  let email := normalizeEmail L (body.get "email")
  let password := strOrEmpty (body.get "password")
  if email == "" || password == "" then
    { outcome := .responded (reply 400 "email and password are required."), db := db, ops := [] }
  else
    match User.findOne L db email with
    | none =>
      { outcome := .responded (reply 401 "Invalid credentials."), db := db,
        ops := [.findOne email] }
    | some user =>
      if !L.bcryptCompare password user.passwordHash then
        { outcome := .responded (reply 401 "Invalid credentials."), db := db,
          ops := [.findOne email, .compare password user.passwordHash] }
      else
        let ops := [Op.findOne email, .compare password user.passwordHash,
                    .signToken user._id user.role]
        match signToken L env cx.now user._id user.role with
        | .error e => { outcome := .forwarded e, db := db, ops := ops }
        | .ok token =>
          { outcome := .responded { status := 200, body := authBody token user },
            db := db, ops := ops }

/-! ## Bodies with fields that `String(...)` cannot convert -/

/-- A value of a parsed JSON body as a handler finds it: one that
`String(...)` converts, or an object for which `String(...)` throws, such as
`{ "toString": null }` (its own `toString` is not callable and `valueOf`
returns the object). -/
inductive RawVal where
  | plain (v : JsVal)
  | unconvertible
  deriving Repr, DecidableEq

/-- A parsed JSON object with fields of either kind: `req.body` as it
arrives. -/
abbrev RawObj := List (String × RawVal)

/-- Property access `obj.key`, `undefined` when the key is not there. -/
def RawObj.get (o : RawObj) (key : String) : RawVal :=
  match o.find? (fun kv => kv.1 == key) with
  | some kv => kv.2
  | none => .plain .undefined

/-- The fields of a body that `String(...)` converts. -/
def RawObj.plain (o : RawObj) : JsObj :=
  o.filterMap (fun kv =>
    match kv.2 with
    | .plain v => some (kv.1, v)
    | .unconvertible => none)

/-- The error `String(v)` throws on an object it cannot convert. -/
def conversionError : JsError :=
  { name := "TypeError", message := "Cannot convert object to primitive value", code := none }

/-- The idiom `String(v || "")` on any value of a body: an object is truthy,
so an unconvertible one reaches `String(...)`, which throws. -/
def stringOrThrow (v : RawVal) : Except JsError String :=
  match v with
  | .plain v => .ok (strOrEmpty v)
  | .unconvertible => .error conversionError

/-- The handler `exports.signup` on any body: lines 15-17 convert username,
email and password in this order; an error thrown there is caught and handed
to `next` before anything else is done. -/
def signupRaw (L : Lib) (env : ProcessEnv) (cx : Ctx) (db : Db) (body : RawObj) : Run :=
  match stringOrThrow (body.get "username") with
  | .error e => { outcome := .forwarded e, db := db, ops := [] }
  | .ok _ =>
    match stringOrThrow (body.get "email") with
    | .error e => { outcome := .forwarded e, db := db, ops := [] }
    | .ok _ =>
      match stringOrThrow (body.get "password") with
      | .error e => { outcome := .forwarded e, db := db, ops := [] }
      | .ok _ => signup L env cx db body.plain

/-- The handler `exports.login` on any body: lines 70-71 convert email and
password in this order; an error thrown there is caught and handed to `next`
before anything else is done. -/
def loginRaw (L : Lib) (env : ProcessEnv) (cx : Ctx) (db : Db) (body : RawObj) : Run :=
  match stringOrThrow (body.get "email") with
  | .error e => { outcome := .forwarded e, db := db, ops := [] }
  | .ok _ =>
    match stringOrThrow (body.get "password") with
    | .error e => { outcome := .forwarded e, db := db, ops := [] }
    | .ok _ => login L env cx db body.plain

/-! ## middleware/errorHandler.js -/

/-- The function `errorHandler(err, req, res, next)`: the response it sends. -/
def errorHandler (err : JsError) : Response :=
  if err.code == some 11000 then reply 409 "Duplicate value."
  else reply 500 "Server error."

/-- The response the client receives for a controller call mounted in the
app: the controller's own, or the error handler's for `next(err)`. -/
def Run.response (r : Run) : Response :=
  match r.outcome with
  | .responded p => p
  | .forwarded e => errorHandler e

/-! ## middleware/auth.js -/

/-- The request object as the middleware sees it: the `authorization` header,
the parsed body and the `user` property. -/
structure Req where
  authorization : Option String
  body : JsObj
  user : Option Claims
  deriving Repr, DecidableEq

/-- One thing a handler does with `res` and `next`. -/
inductive Act where
  | send (r : Response)
  | next
  | nextErr (e : JsError)
  deriving Repr

/-- A finished handler call: the request object as it leaves it and what it
did, in order. -/
structure Handled where
  req : Req
  acts : List Act
  deriving Repr

/-- A middleware or controller. -/
abbrev Handler := Req → Handled

/-- The expression `req.headers.authorization || ""`. -/
def headerOrEmpty (h : Option String) : String :=
  match h with
  | none => ""
  | some s => s

/-- The middleware `auth(req, res, next)` at time `now`. -/
def auth (L : Lib) (env : ProcessEnv) (now : Nat) (req : Req) : Handled :=
  let header := headerOrEmpty req.authorization
  let token := if jsStartsWith header "Bearer " then jsSlice header 7 else ""
  if token == "" then { req := req, acts := [.send (reply 401 "Missing token.")] }
  else
    match env.JWT_SECRET with
    | none => { req := req, acts := [.send (reply 500 "JWT secret missing.")] }
    | some secret =>
      if secret == "" then { req := req, acts := [.send (reply 500 "JWT secret missing.")] }
      else
        match jwtVerify L token secret now with
        | .ok decoded => { req := { req with user := some decoded }, acts := [.next] }
        | .error _ => { req := req, acts := [.send (reply 401 "Invalid or expired token.")] }

/-! ## middleware/admin.js and routes/adminRoutes.js -/

/-- Modelled from the spec: the role gate `middleware/admin.js`, whose file is
not among the sources.  Section 4.5: given the required role `admin`, if the
role attached to the request context is not the required role the request
fails with Forbidden; otherwise it is let through unchanged. -/
def adminOnly (req : Req) : Handled :=
  match req.user with
  | some c =>
    if c.role == "admin" then { req := req, acts := [.next] }
    else { req := req, acts := [.send (reply 403 "Forbidden.")] }
  | none => { req := req, acts := [.send (reply 403 "Forbidden.")] }

/-- A handler mounted on a route. -/
inductive Mw where
  | auth
  | adminOnly
  | controller (name : String)
  deriving Repr, DecidableEq

/-- A route of a router: method, path pattern and handlers in order. -/
structure Route where
  method : String
  path : String
  chain : List Mw
  deriving Repr, DecidableEq

/-- The router of `routes/adminRoutes.js`. -/
def adminRoutes : List Route :=
  [ { method := "GET", path := "/users",
      chain := [.auth, .adminOnly, .controller "listUsers"] },
    { method := "GET", path := "/recipes",
      chain := [.auth, .adminOnly, .controller "listAdminRecipes"] },
    { method := "POST", path := "/recipes",
      chain := [.auth, .adminOnly, .controller "createRecipe"] },
    { method := "DELETE", path := "/recipes/:id",
      chain := [.auth, .adminOnly, .controller "deleteRecipe"] } ]

/-- What a request meets on its way through a route. -/
inductive Event where
  | entered (m : Mw)
  | sent (r : Response)
  deriving Repr

/-- The surroundings of a routed request: dependencies, environment, clock
and the controllers by name. -/
structure Stack where
  lib : Lib
  env : ProcessEnv
  now : Nat
  controllers : String → Handler

/-- The handler a mounted name stands for. -/
def Mw.handler (S : Stack) : Mw → Handler
  | .auth => Kusina.auth S.lib S.env S.now
  | .adminOnly => Kusina.adminOnly
  | .controller name => S.controllers name

/-- Carry out what a handler did: a response is sent, `next()` runs the rest
of the chain on the request, `next(err)` goes to the error handler. -/
def runActs (rest : Req → List Event) (req : Req) : List Act → List Event
  | [] => []
  | .send r :: as => .sent r :: runActs rest req as
  | .next :: as => rest req ++ runActs rest req as
  | .nextErr e :: as => .sent (errorHandler e) :: runActs rest req as

/-- Express running the handlers of a route in order. -/
def runChain (S : Stack) : List Mw → Req → List Event
  | [], _ => []
  | m :: ms, req =>
    .entered m :: runActs (runChain S ms) (Mw.handler S m req).req (Mw.handler S m req).acts

/-! ## utils/jwt.js and authController.js, seen from further away -/

/-- The expression `process.env.JWT_EXPIRES_IN || "7d"` of `signToken`. -/
def configuredExpiresIn (env : ProcessEnv) : String :=
  match env.JWT_EXPIRES_IN with
  | none => "7d"
  | some e => if e == "" then "7d" else e

/-- The handler `exports.signup` with its awaits made visible: the email
lookup reads the collection `db`, and `User.create`, awaited later, runs on
`dbAtCreate`, the collection as other requests have left it by then.  With
`dbAtCreate = db` this is `signup`. -/
def signupInterleaved (L : Lib) (env : ProcessEnv) (cx : Ctx) (db dbAtCreate : Db)
    (body : JsObj) : Run :=
  let username := jsTrim (strOrEmpty (body.get "username"))
  let email := normalizeEmail L (body.get "email")
  let password := strOrEmpty (body.get "password")
  if username == "" || email == "" || password == "" then
    { outcome := .responded (reply 400 "username, email, and password are required."),
      db := dbAtCreate, ops := [] }
  else if jsLength password < 6 then
    { outcome := .responded (reply 400 "Password must be at least 6 characters."),
      db := dbAtCreate, ops := [] }
  else
    match User.findOne L db email with
    | some _ =>
      { outcome := .responded (reply 409 "Email is already registered."),
        db := dbAtCreate, ops := [.findOne email] }
    | none =>
      let passwordHash := L.bcryptHash password cx.salt
      let fields : NewUser :=
        { username := username, email := email, passwordHash := passwordHash, role := "user" }
      let ops := [Op.findOne email, .genSalt 10, .hash password cx.salt, .create fields]
      match User.create L cx.now cx.oid dbAtCreate fields with
      | .error e => { outcome := .forwarded e, db := dbAtCreate, ops := ops }
      | .ok (user, db1) =>
        match signToken L env cx.now user._id user.role with
        | .error e =>
          { outcome := .forwarded e, db := db1, ops := ops ++ [.signToken user._id user.role] }
        | .ok token =>
          { outcome := .responded { status := 201, body := authBody token user },
            db := db1, ops := ops ++ [.signToken user._id user.role] }

/-! ## controllers/userController.js -/

/-- The method `set.add(x)`, the set kept as the list of its members in
insertion order. -/
def setAdd (s : List String) (x : String) : List String :=
  if x ∈ s then s else s ++ [x]

/-- The constructor `new Set(array)`. -/
def newSet (xs : List String) : List String :=
  xs.foldl setAdd []

/-- The method `set.delete(x)`. -/
def setDelete (s : List String) (x : String) : List String :=
  s.filter (fun y => y != x)

/-- The toggle both controllers run on their list (lines 44-55 and 81-92):
build the set, delete the meal if it is there and add it otherwise; returns
`added` and `Array.from(set)`. -/
def toggleIn (list : List String) (mealId : String) : Bool × List String :=
  let set := newSet list
  if mealId ∈ set then (false, setDelete set mealId) else (true, setAdd set mealId)

/-- The call `user.save()` at time `now` on a document loaded by
`findById(id).select(...)` with one path modified by `f`: the stored document
with that `_id` takes the modified path and a new `updatedAt`. -/
def saveModified (now : Nat) (id : ObjectId) (f : User → User) : Db → Db
  | [] => []
  | u :: us =>
    if u._id == id then { f u with updatedAt := now } :: us
    else u :: saveModified now id f us

/-- A finished call of a user controller: its end and the collection it
leaves. -/
structure UserRun where
  outcome : Outcome
  db : Db
  deriving Repr

/-- The status of the response, when the controller sent one itself. -/
def UserRun.status (r : UserRun) : Option Nat :=
  match r.outcome with
  | .responded p => some p.status
  | .forwarded _ => none

/-- The handler `exports.toggleFavorite` at time `now`.  An `_id` read from
verified claims is a non-empty string, so `!userId` is the test that
`req.user` is not set. -/
def toggleFavorite (now : Nat) (db : Db) (req : Req) : UserRun :=
  let mealId := jsTrim (strOrEmpty (req.body.get "mealId"))
  match req.user with
  | none => { outcome := .responded (reply 401 "Unauthorized."), db := db }
  | some c =>
    if mealId == "" then { outcome := .responded (reply 400 "mealId is required."), db := db }
    else
      match User.findById db c.userId with
      | none => { outcome := .responded (reply 404 "User not found."), db := db }
      | some user =>
        let added := (toggleIn user.favorites mealId).1
        let favorites := (toggleIn user.favorites mealId).2
        { outcome := .responded
            { status := 200,
              body := .obj [("ok", .bool true), ("added", .bool added),
                            ("favorites", .arr (favorites.map Json.str))] },
          db := saveModified now user._id (fun u => { u with favorites := favorites }) db }

/-- The handler `exports.toggleSavedList` at time `now`. -/
def toggleSavedList (now : Nat) (db : Db) (req : Req) : UserRun :=
  let mealId := jsTrim (strOrEmpty (req.body.get "mealId"))
  match req.user with
  | none => { outcome := .responded (reply 401 "Unauthorized."), db := db }
  | some c =>
    if mealId == "" then { outcome := .responded (reply 400 "mealId is required."), db := db }
    else
      match User.findById db c.userId with
      | none => { outcome := .responded (reply 404 "User not found."), db := db }
      | some user =>
        let added := (toggleIn user.savedList mealId).1
        let savedList := (toggleIn user.savedList mealId).2
        { outcome := .responded
            { status := 200,
              body := .obj [("ok", .bool true), ("added", .bool added),
                            ("savedList", .arr (savedList.map Json.str))] },
          db := saveModified now user._id (fun u => { u with savedList := savedList }) db }

/-! ## Requests served one after another -/

/-- A request that can change the collection, with what it draws from its
surroundings. -/
inductive Request where
  | signup (env : ProcessEnv) (cx : Ctx) (body : JsObj)
  | toggleFavorite (now : Nat) (req : Req)
  | toggleSavedList (now : Nat) (req : Req)
  deriving Repr

/-- The collection after one request. -/
def Request.serve (L : Lib) (db : Db) : Request → Db
  | .signup env cx body => (Kusina.signup L env cx db body).db
  | .toggleFavorite now req => (Kusina.toggleFavorite now db req).db
  | .toggleSavedList now req => (Kusina.toggleSavedList now db req).db

/-- The collection after a sequence of requests, served in order. -/
def serveAll (L : Lib) (db : Db) (rs : List Request) : Db :=
  rs.foldl (Request.serve L) db

/-- Whether a request is a signup. -/
def Request.isSignup : Request → Bool
  | .signup _ _ _ => true
  | _ => false

/-! ## src/pages/RecipesPage.jsx -/

/-- The constant `PAGE_SIZE`. -/
def PAGE_SIZE : Int := 12

/-- The method `array.slice(start, end)`: a negative index counts from the
end, and both are clamped to the array. -/
def jsArraySlice {α : Type} (l : List α) (start stop : Int) : List α :=
  let len : Int := l.length
  let k := if start < 0 then max (len + start) 0 else min start len
  let fin := if stop < 0 then max (len + stop) 0 else min stop len
  (l.drop k.toNat).take (fin - k).toNat

/-- The call `Array.from({ length }, (_, i) => f(i))`. -/
def arrayFrom (length : Int) (f : Int → Int) : List Int :=
  (List.range length.toNat).map (fun (i : Nat) => f (i : Int))

/-- The value `totalPages`: `Math.max(1, Math.ceil(recipes.length / PAGE_SIZE))`,
the ceiling of the quotient of a length by twelve being `(length + 11) / 12`. -/
def totalPages (length : Nat) : Int :=
  max 1 (((length + 11) / 12 : Nat) : Int)

/-- The value `safePage`: `Math.min(page, totalPages)`. -/
def safePage (length : Nat) (page : Int) : Int :=
  min page (totalPages length)

/-- The value `paginated`: the slice of the recipes shown on the page. -/
def paginated {α : Type} (recipes : List α) (page : Int) : List α :=
  let start := (safePage recipes.length page - 1) * PAGE_SIZE
  jsArraySlice recipes start (start + PAGE_SIZE)

/-- The value `pageButtons`, from the total number of pages and the page
shown. -/
def pageButtons (totalPages safePage : Int) : List Int :=
  let maxButtons : Int := 7
  if totalPages ≤ maxButtons then arrayFrom totalPages (fun i => i + 1)
  else
    let half : Int := maxButtons / 2
    let startPage0 := safePage - half
    let endPage0 := safePage + half
    let startPage1 := if startPage0 < 1 then 1 else startPage0
    let endPage1 := if startPage0 < 1 then maxButtons else endPage0
    let endPage2 := if endPage1 > totalPages then totalPages else endPage1
    let startPage2 := if endPage1 > totalPages then totalPages - maxButtons + 1 else startPage1
    arrayFrom (endPage2 - startPage2 + 1) (fun i => startPage2 + i)

/-- A meal of the recipe catalogue, as far as the pages read it. -/
structure Meal where
  idMeal : String
  strMeal : String
  strMealThumb : String
  deriving Repr, DecidableEq

/-- The method `map.set(key, value)` on a `Map` kept as the list of its
entries in insertion order: a key already there keeps its place and takes the
new value. -/
def mapSet (map : List (String × Meal)) (key : String) (value : Meal) : List (String × Meal) :=
  match map with
  | [] => [(key, value)]
  | (k, v) :: rest => if k == key then (k, value) :: rest else (k, v) :: mapSet rest key value

/-- The function `dedupeById(arr)`. -/
def dedupeById (arr : List Meal) : List Meal :=
  (arr.foldl (fun map m => mapSet map m.idMeal m) []).map (fun kv => kv.2)

/-! ## src/context/AuthContext.jsx and src/components/RequireAdmin.jsx -/

/-- The value `isLoggedIn`: `!!token && !!user`.  The stored user is `none`
when it is `null` (or any other falsy value) and otherwise the object with
its properties. -/
def isLoggedIn (token : String) (user : Option JsObj) : Bool :=
  token != "" && user.isSome

/-- The expression `user?.role`. -/
def userRole (user : Option JsObj) : JsVal :=
  match user with
  | none => .undefined
  | some o => o.get "role"

/-- What the component `RequireAdmin` renders: `none` for `null`, otherwise
its children. -/
def RequireAdmin {α : Type} (token : String) (user : Option JsObj) (children : α) : Option α :=
  if !isLoggedIn token user || userRole user != JsVal.str "admin" then none
  else some children

/-! ## src/pages/RecipeDetail.jsx -/

/-- Whether a character is the given ASCII letter in either case. -/
def isLetter (lower : Char) (c : Char) : Bool :=
  c == lower || c == lower.toUpper

/-- The length of the match of `/step\s*\d+[:.)-]?\s*/i` at the head of the
text, if it matches there. -/
def matchStep : List Char → Option Nat
  | c1 :: c2 :: c3 :: c4 :: rest =>
    if isLetter 's' c1 && isLetter 't' c2 && isLetter 'e' c3 && isLetter 'p' c4 then
      let ws1 := rest.takeWhile isJsSpace
      let r1 := rest.dropWhile isJsSpace
      let ds := r1.takeWhile Char.isDigit
      let r2 := r1.dropWhile Char.isDigit
      if ds.isEmpty then none
      else
        let mark : Nat :=
          match r2 with
          | c :: _ => if c == ':' || c == '.' || c == ')' || c == '-' then 1 else 0
          | [] => 0
        let ws2 := (r2.drop mark).takeWhile isJsSpace
        some (4 + ws1.length + ds.length + mark + ws2.length)
    else none
  | _ => none

/-- The call `text.replace(/step\s*\d+[:.)-]?\s*/gi, "")`; `skip` is the
number of characters of a match still to drop. -/
def removeSteps (skip : Nat) : List Char → List Char
  | [] => []
  | c :: rest =>
    match skip with
    | n + 1 => removeSteps n rest
    | 0 =>
      match matchStep (c :: rest) with
      | some n => removeSteps (n - 1) rest
      | none => c :: removeSteps 0 rest

/-- Whether a separator of `/\r?\n+|\. +|;\s+/` starts at the character `c`
followed by `next`; if so, the characters that the separator goes on to
take. -/
def separatorAt (c : Char) (next : Option Char) : Option (Char → Bool) :=
  if c == '\n' then some (fun d => d == '\n')
  else if c == '\r' && next == some '\n' then some (fun d => d == '\n')
  else if c == '.' && next == some ' ' then some (fun d => d == ' ')
  else if c == ';' && (next.map isJsSpace).getD false then some isJsSpace
  else none

/-- The call `cleaned.split(/\r?\n+|\. +|;\s+/)`: `skip` tells the characters
that still belong to the separator just met, `cur` holds the part being read,
last character first. -/
def splitParts (skip : Char → Bool) (cur : List Char) : List Char → List (List Char)
  | [] => [cur.reverse]
  | c :: rest =>
    if skip c then splitParts skip cur rest
    else
      match separatorAt c rest.head? with
      | some more => cur.reverse :: splitParts more [] rest
      | none => splitParts (fun _ => false) (c :: cur) rest

/-- The function `parseInstructions(text)`; `none` is a text that is not
there. -/
def parseInstructions (text : Option String) : List String :=
  match text with
  | none => []
  | some t =>
    if t == "" then []
    else
      let cleaned := removeSteps 0 t.data
      let parts := splitParts (fun _ => false) [] cleaned
      (parts.map (fun s => jsTrim (String.mk s))).filter (fun s => jsLength s > 0)

/-- The method `s.includes(p)`. -/
def jsIncludes (s p : String) : Bool :=
  s.data.tails.any (fun t => p.data.isPrefixOf t)

/-- The rest of a URL scheme: letters, digits, `+`, `-`, `.` up to a colon. -/
def schemeRest : List Char → Bool
  | [] => false
  | c :: rest =>
    if c == ':' then true
    else if c.isAlphanum || c == '+' || c == '-' || c == '.' then schemeRest rest
    else false

/-- Whether the URL parser finds a scheme at the head of its input: without
one, and without a base, it fails. -/
def hasScheme : List Char → Bool
  | [] => false
  | c :: rest => c.isAlpha && schemeRest rest

/-- The input of the URL parser: leading and trailing C0 controls and spaces
stripped, ASCII tab and newline removed. -/
def urlInput (s : String) : List Char :=
  (((s.data.dropWhile (fun c => c.toNat ≤ 0x20)).reverse.dropWhile
      (fun c => c.toNat ≤ 0x20)).reverse).filter
    (fun c => !(c == '\t' || c == '\n' || c == '\r'))

/-- The browser's URL parser past the scheme: for an input that has a scheme,
the value of `new URL(input).searchParams.get("v")` (`none` for `null`), or
the error it throws. -/
structure Browser where
  searchParamV : String → Except JsError (Option String)

/-- The expression `new URL(s).searchParams.get("v")`: the constructor, given
no base, throws a `TypeError` on an input without a scheme. -/
def urlSearchParamV (B : Browser) (s : String) : Except JsError (Option String) :=
  if hasScheme (urlInput s) then B.searchParamV s
  else .error { name := "TypeError", message := "Invalid URL", code := none }

/-- The value `youtubeId` of the recipe page, from `meal?.strYoutube` (`none`
when the meal or the field is not there): the id, `none` for `null`, or the
error thrown while rendering. -/
def youtubeId (B : Browser) (strYoutube : Option String) : Except JsError (Option String) :=
  let youtubeUrl :=
    match strYoutube with
    | none => ""
    | some s => jsTrim s
  if jsIncludes youtubeUrl "v=" then urlSearchParamV B youtubeUrl
  else .ok (some "")

/-! ## A concrete instance of the dependencies

Used to evaluate the handlers on concrete requests. -/

/-- Split a list of characters at every dot. -/
def splitDots : List Char → List (List Char)
  | [] => [[]]
  | c :: cs =>
    match splitDots cs with
    | [] => [[c]]
    | p :: ps => if c == '.' then [] :: p :: ps else (c :: p) :: ps

/-- Read a non-empty list of decimal digits. -/
def readDigits (cs : List Char) : Option Nat :=
  if cs != [] && cs.all Char.isDigit then
    some (cs.foldl (fun n c => 10 * n + (c.toNat - 48)) 0)
  else none

/-- A small stand-in for the dependencies: ASCII case mapping, a hash that
keeps salt and password side by side, time spans `7d` and `1h`, and tokens
that spell out claims and secret separated by dots. -/
def demoLib : Lib where
  toLowerCase s := String.mk (s.data.map Char.toLower)
  bcryptHash p salt := salt ++ "$" ++ p
  bcryptCompare p h := h.data.dropWhile (fun c => c != '$') == '$' :: p.data
  timespan s := if s == "7d" then some 604800 else if s == "1h" then some 3600 else none
  jwsEncode c secret :=
    toString c.userId ++ "." ++ c.role ++ "." ++ toString c.iat ++ "." ++ toString c.exp
      ++ "." ++ secret
  jwsDecode token secret :=
    match splitDots token.data with
    | [u, r, i, e, s] =>
      if String.mk s == secret then
        match readDigits u, readDigits i, readDigits e with
        | some userId, some iat, some exp =>
          some { userId := userId, role := String.mk r, iat := iat, exp := exp }
        | _, _, _ => none
      else none
    | _ => none

/-- An environment with a secret and the default lifetime. -/
def demoEnv : ProcessEnv := { JWT_SECRET := some "s3cr3t", JWT_EXPIRES_IN := none }

/-- The record a signup of "bayla" with password "secret1" leaves. -/
def demoUser : User :=
  { _id := 7, username := "bayla", email := "bay@ex.com", passwordHash := "salt$secret1",
    role := "user", favorites := [], savedList := [], createdAt := 1000, updatedAt := 1000 }

/-- A record whose `favorites` holds "52772" twice. -/
def demoUserWithDuplicates : User :=
  { demoUser with favorites := ["52772", "52772", "52959"] }

/-! ## Facts about the store and the token helper -/

/-- The document `User.create` inserts for a signup request. -/
def signupDoc (L : Lib) (cx : Ctx) (body : JsObj) : User :=
  { _id := cx.oid,
    username := usernameSetter (jsTrim (strOrEmpty (body.get "username"))),
    email := emailSetter L (normalizeEmail L (body.get "email")),
    passwordHash := L.bcryptHash (strOrEmpty (body.get "password")) cx.salt,
    role := "user", favorites := [], savedList := [], createdAt := cx.now, updatedAt := cx.now }

theorem jsLength_empty : jsLength "" = 0 := rfl

theorem create_ok (L : Lib) (now : Nat) (oid : ObjectId) (db : Db) (f : NewUser) (user : User)
    (db1 : Db) (h : User.create L now oid db f = .ok (user, db1)) :
    user = { _id := oid, username := usernameSetter f.username, email := emailSetter L f.email,
             passwordHash := f.passwordHash, role := f.role, favorites := [], savedList := [],
             createdAt := now, updatedAt := now }
      ∧ db1 = db ++ [user] := by
  unfold User.create at h
  simp only at h
  split at h
  · cases h
  · split at h
    · cases h
    · simp only [Except.ok.injEq, Prod.mk.injEq] at h
      obtain ⟨h1, h2⟩ := h
      subst h1
      exact ⟨rfl, h2.symm⟩

theorem findOne_append_of_none (L : Lib) (db : Db) (u : User) (e : String)
    (hu : u.email = emailSetter L e) (hn : User.findOne L db e = none) :
    User.findOne L (db ++ [u]) e = some u := by
  unfold User.findOne at hn ⊢
  rw [List.find?_append, hn]
  simp [hu]

theorem signToken_ok (L : Lib) (env : ProcessEnv) (now : Nat) (uid : ObjectId) (role token : String)
    (h : signToken L env now uid role = .ok token) :
    ∃ secret e t, env.JWT_SECRET = some secret ∧ secret ≠ ""
      ∧ e = (match env.JWT_EXPIRES_IN with
            | none => "7d"
            | some e => if e == "" then "7d" else e)
      ∧ L.timespan e = some t
      ∧ token = L.jwsEncode { userId := uid, role := role, iat := now, exp := now + t } secret := by
  unfold signToken at h
  split at h
  · cases h
  · rename_i secret hs
    split at h
    · cases h
    · rename_i hne
      simp only [jwtSign] at h
      split at h
      · cases h
      · rename_i t ht
        simp only [Except.ok.injEq] at h
        exact ⟨secret, _, t, hs, by simpa using hne, rfl, ht, h.symm⟩

theorem signToken_ok_again (L : Lib) (env : ProcessEnv) (now : Nat) (uid : ObjectId)
    (role token : String) (h : signToken L env now uid role = .ok token)
    (now2 : Nat) (uid2 : ObjectId) (role2 : String) :
    ∃ token2, signToken L env now2 uid2 role2 = .ok token2 := by
  obtain ⟨secret, e, t, hs, hne, he, ht, _⟩ := signToken_ok L env now uid role token h
  subst he
  refine ⟨L.jwsEncode { userId := uid2, role := role2, iat := now2, exp := now2 + t } secret, ?_⟩
  unfold signToken
  simp only [hs, jwtSign]
  simp only [beq_iff_eq] at ht
  simp [hne, ht]

theorem signup_201 (L : Lib) (env : ProcessEnv) (cx : Ctx) (db : Db) (body : JsObj)
    (h : (signup L env cx db body).status = some 201) :
    jsTrim (strOrEmpty (body.get "username")) ≠ ""
      ∧ normalizeEmail L (body.get "email") ≠ ""
      ∧ strOrEmpty (body.get "password") ≠ ""
      ∧ 6 ≤ jsLength (strOrEmpty (body.get "password"))
      ∧ User.findOne L db (normalizeEmail L (body.get "email")) = none
      ∧ ∃ token, signToken L env cx.now cx.oid "user" = .ok token
        ∧ (signup L env cx db body).outcome
            = .responded { status := 201, body := authBody token (signupDoc L cx body) }
        ∧ (signup L env cx db body).db = db ++ [signupDoc L cx body] := by
  unfold signup at h ⊢
  simp only at h ⊢
  split at h
  · simp [Run.status, reply] at h
  · rename_i h1
    split at h
    · simp [Run.status, reply] at h
    · rename_i h2
      split at h
      · simp [Run.status, reply] at h
      · rename_i hf
        split at h
        · simp [Run.status] at h
        · rename_i user db1 hc
          obtain ⟨hu, hd⟩ := create_ok _ _ _ _ _ _ _ hc
          split at h
          · simp [Run.status] at h
          · rename_i token ht
            simp only [Bool.or_eq_true, beq_iff_eq, not_or] at h1
            have hu2 : user = signupDoc L cx body := by rw [hu]; rfl
            subst hu2
            refine ⟨h1.1.1, h1.1.2, h1.2, Nat.le_of_not_lt h2, hf, token, ?_, ?_⟩
            · simpa [signupDoc] using ht
            · simp [h1, h2, hf, hc, ht, hd]

theorem login_200 (L : Lib) (env : ProcessEnv) (cx : Ctx) (db : Db) (body : JsObj)
    (h : (login L env cx db body).status = some 200) :
    ∃ user token, User.findOne L db (normalizeEmail L (body.get "email")) = some user
      ∧ L.bcryptCompare (strOrEmpty (body.get "password")) user.passwordHash = true
      ∧ signToken L env cx.now user._id user.role = .ok token
      ∧ (login L env cx db body).outcome
          = .responded { status := 200, body := authBody token user }
      ∧ (login L env cx db body).db = db := by
  unfold login at h ⊢
  simp only at h ⊢
  split at h
  · simp [Run.status, reply] at h
  · rename_i h1
    split at h
    · simp [Run.status, reply] at h
    · rename_i user hf
      split at h
      · simp [Run.status, reply] at h
      · rename_i hc
        split at h
        · simp [Run.status] at h
        · rename_i token ht
          refine ⟨user, token, hf, by simpa using hc, ht, ?_⟩
          simp [h1, hf, hc, ht]

/-! ## Signup validation -/

/-- On a body whose fields `String(...)` converts: a signup whose trimmed
username is empty, whose trimmed and lower-cased email is empty, or whose
password is empty or shorter than six characters is answered with status 400,
and the controller makes no call at all and leaves the collection as it
was. -/
theorem signup_invalid_is_400_without_store_access (L : Lib) (env : ProcessEnv) (cx : Ctx)
    (db : Db) (body : JsObj)
    (h : jsTrim (strOrEmpty (body.get "username")) = ""
      ∨ L.toLowerCase (jsTrim (strOrEmpty (body.get "email"))) = ""
      ∨ strOrEmpty (body.get "password") = ""
      ∨ jsLength (strOrEmpty (body.get "password")) < 6) :
    (signup L env cx db body).status = some 400
      ∧ (signup L env cx db body).ops = []
      ∧ (signup L env cx db body).db = db := by
  unfold signup normalizeEmail
  by_cases h1 : (jsTrim (strOrEmpty (body.get "username")) == ""
      || L.toLowerCase (jsTrim (strOrEmpty (body.get "email"))) == ""
      || strOrEmpty (body.get "password") == "") = true
  · simp only [h1, if_true, Run.status, reply, and_self]
  · by_cases h2 : jsLength (strOrEmpty (body.get "password")) < 6
    · simp only [h1, h2, if_true, Run.status, reply, and_self]
      simp
    · exfalso
      simp only [Bool.or_eq_true, beq_iff_eq, not_or] at h1
      rcases h with h | h | h | h
      · exact h1.1.1 h
      · exact h1.1.2 h
      · exact h1.2 h
      · exact h2 h

theorem plain_get (body : RawObj) (key : String) (v : JsVal)
    (h : body.get key = .plain v) : body.plain.get key = v := by
  induction body with
  | nil =>
    simp only [RawObj.get, List.find?_nil, RawVal.plain.injEq] at h
    subst h
    rfl
  | cons kv rest ih =>
    obtain ⟨k, w⟩ := kv
    by_cases hk : (k == key) = true
    · have hw : w = .plain v := by
        simpa [RawObj.get, List.find?_cons, hk] using h
      subst hw
      simp [RawObj.plain, JsObj.get, List.filterMap_cons, List.find?_cons, hk]
    · have hk2 : (k == key) = false := by simpa using hk
      have hrest : RawObj.get rest key = .plain v := by
        simpa [RawObj.get, List.find?_cons, hk2] using h
      have := ih hrest
      cases w with
      | plain w0 =>
        simpa [RawObj.plain, JsObj.get, List.filterMap_cons, List.find?_cons, hk2] using this
      | unconvertible =>
        simpa [RawObj.plain, JsObj.get, List.filterMap_cons] using this

theorem stringOrThrow_ok (body : RawObj) (key : String) (u : String)
    (h : stringOrThrow (body.get key) = .ok u) : strOrEmpty (body.plain.get key) = u := by
  unfold stringOrThrow at h
  cases hv : body.get key with
  | plain v =>
    rw [hv] at h
    simp only [Except.ok.injEq] at h
    rw [plain_get body key v hv]
    exact h
  | unconvertible =>
    rw [hv] at h
    cases h

theorem signupRaw_of_convertible (L : Lib) (env : ProcessEnv) (cx : Ctx) (db : Db)
    (body : RawObj) (u e p : String)
    (hu : stringOrThrow (body.get "username") = .ok u)
    (he : stringOrThrow (body.get "email") = .ok e)
    (hp : stringOrThrow (body.get "password") = .ok p) :
    signupRaw L env cx db body = signup L env cx db body.plain := by
  unfold signupRaw
  simp only [hu, he, hp]

theorem loginRaw_of_convertible (L : Lib) (env : ProcessEnv) (cx : Ctx) (db : Db)
    (body : RawObj) (e p : String)
    (he : stringOrThrow (body.get "email") = .ok e)
    (hp : stringOrThrow (body.get "password") = .ok p) :
    loginRaw L env cx db body = login L env cx db body.plain := by
  unfold loginRaw
  simp only [he, hp]

/-- On any body, `signupRaw` either is `signup` on the convertible fields or
hands the conversion error to `next` without a call and without touching the
collection; the client then gets the error handler's 500. -/
theorem signupRaw_cases (L : Lib) (env : ProcessEnv) (cx : Ctx) (db : Db) (body : RawObj) :
    signupRaw L env cx db body = signup L env cx db body.plain
      ∨ ((signupRaw L env cx db body).outcome = .forwarded conversionError
          ∧ (signupRaw L env cx db body).response = reply 500 "Server error."
          ∧ (signupRaw L env cx db body).ops = []
          ∧ (signupRaw L env cx db body).db = db) := by
  have herr : ∀ v : RawVal, ∀ e, stringOrThrow v = .error e → e = conversionError := by
    intro v e h
    unfold stringOrThrow at h
    cases v with
    | plain v => cases h
    | unconvertible =>
      simp only [Except.error.injEq] at h
      exact h.symm
  unfold signupRaw
  cases hu : stringOrThrow (body.get "username") with
  | error e =>
    right
    rw [herr _ e hu]
    exact ⟨rfl, rfl, rfl, rfl⟩
  | ok u =>
    cases he : stringOrThrow (body.get "email") with
    | error e =>
      right
      rw [herr _ e he]
      exact ⟨rfl, rfl, rfl, rfl⟩
    | ok em =>
      cases hp : stringOrThrow (body.get "password") with
      | error e =>
        right
        rw [herr _ e hp]
        exact ⟨rfl, rfl, rfl, rfl⟩
      | ok p => exact Or.inl rfl

/-- On any body, `loginRaw` either is `login` on the convertible fields or
hands the conversion error to `next` without a call and without touching the
collection; the client then gets the error handler's 500. -/
theorem loginRaw_cases (L : Lib) (env : ProcessEnv) (cx : Ctx) (db : Db) (body : RawObj) :
    loginRaw L env cx db body = login L env cx db body.plain
      ∨ ((loginRaw L env cx db body).outcome = .forwarded conversionError
          ∧ (loginRaw L env cx db body).response = reply 500 "Server error."
          ∧ (loginRaw L env cx db body).ops = []
          ∧ (loginRaw L env cx db body).db = db) := by
  have herr : ∀ v : RawVal, ∀ e, stringOrThrow v = .error e → e = conversionError := by
    intro v e h
    unfold stringOrThrow at h
    cases v with
    | plain v => cases h
    | unconvertible =>
      simp only [Except.error.injEq] at h
      exact h.symm
  unfold loginRaw
  cases he : stringOrThrow (body.get "email") with
  | error e =>
    right
    rw [herr _ e he]
    exact ⟨rfl, rfl, rfl, rfl⟩
  | ok em =>
    cases hp : stringOrThrow (body.get "password") with
    | error e =>
      right
      rw [herr _ e hp]
      exact ⟨rfl, rfl, rfl, rfl⟩
    | ok p => exact Or.inl rfl

/-- C1, as the code has it: for a signup body whose username, email and
password `String(...)` converts, if the trimmed username is empty, or the
trimmed and lower-cased email is empty, or the password is empty or shorter
than six characters, then the handler answers with status 400, makes no call
at all (no email lookup, no create) and leaves the collection as it was. -/
theorem signupRaw_invalid_is_400_without_store_access (L : Lib) (env : ProcessEnv) (cx : Ctx)
    (db : Db) (body : RawObj) (u e p : String)
    (hu : stringOrThrow (body.get "username") = .ok u)
    (he : stringOrThrow (body.get "email") = .ok e)
    (hp : stringOrThrow (body.get "password") = .ok p)
    (h : jsTrim u = "" ∨ L.toLowerCase (jsTrim e) = "" ∨ p = "" ∨ jsLength p < 6) :
    (signupRaw L env cx db body).status = some 400
      ∧ (signupRaw L env cx db body).ops = []
      ∧ (signupRaw L env cx db body).db = db := by
  rw [signupRaw_of_convertible L env cx db body u e p hu he hp]
  apply signup_invalid_is_400_without_store_access
  rw [stringOrThrow_ok body "username" u hu, stringOrThrow_ok body "email" e he,
    stringOrThrow_ok body "password" p hp]
  exact h

/-- C1 at a concrete request: a five-character password. -/
theorem signupRaw_invalid_is_400_without_store_access_witness :
    (signupRaw demoLib demoEnv ⟨1000, "salt", 7⟩ []
        [("username", .plain (.str "bayla")), ("email", .plain (.str "bay@ex.com")),
         ("password", .plain (.str "secre"))]).status = some 400
      ∧ (signupRaw demoLib demoEnv ⟨1000, "salt", 7⟩ []
        [("username", .plain (.str "bayla")), ("email", .plain (.str "bay@ex.com")),
         ("password", .plain (.str "secre"))]).ops = []
      ∧ (signupRaw demoLib demoEnv ⟨1000, "salt", 7⟩ []
        [("username", .plain (.str "bayla")), ("email", .plain (.str "bay@ex.com")),
         ("password", .plain (.str "secre"))]).db = [] :=
  signupRaw_invalid_is_400_without_store_access demoLib demoEnv ⟨1000, "salt", 7⟩ []
    [("username", .plain (.str "bayla")), ("email", .plain (.str "bay@ex.com")),
     ("password", .plain (.str "secre"))] "bayla" "bay@ex.com" "secre" rfl rfl rfl
    (Or.inr (Or.inr (Or.inr (by decide))))

/-- C1 as stated fails: for the body `{ "username": { "toString": null },
"email": "a@ex.com", "password": "abc" }` the password is shorter than six
characters, yet line 15 throws while converting the username, the catch hands
the error to `next`, and the client gets the error handler's 500, not a
400. -/
theorem signupRaw_unconvertible_username_is_500 :
    stringOrThrow
        (RawObj.get [("username", .unconvertible), ("email", .plain (.str "a@ex.com")),
          ("password", .plain (.str "abc"))] "password") = .ok "abc"
      ∧ jsLength "abc" < 6
      ∧ (signupRaw demoLib demoEnv ⟨1000, "salt", 7⟩ []
          [("username", .unconvertible), ("email", .plain (.str "a@ex.com")),
           ("password", .plain (.str "abc"))]).outcome = .forwarded conversionError
      ∧ (signupRaw demoLib demoEnv ⟨1000, "salt", 7⟩ []
          [("username", .unconvertible), ("email", .plain (.str "a@ex.com")),
           ("password", .plain (.str "abc"))]).response = reply 500 "Server error."
      ∧ (signupRaw demoLib demoEnv ⟨1000, "salt", 7⟩ []
          [("username", .unconvertible), ("email", .plain (.str "a@ex.com")),
           ("password", .plain (.str "abc"))]).status ≠ some 400 := by
  refine ⟨rfl, by decide, rfl, rfl, by decide⟩

/-! ## Duplicate email -/

/-- C2: after a signup that succeeded with 201, a signup whose body passes the
controller's checks on username and password and whose email is the same
after trimming and lower-casing is answered 409 "Email is already
registered."; it leaves the collection as the first signup left it and its
only call is the email lookup (no create). -/
theorem second_signup_same_email_is_409 (L : Lib) (env1 env2 : ProcessEnv) (cx1 cx2 : Ctx)
    (db : Db) (body1 body2 : JsObj)
    (hemail : normalizeEmail L (body2.get "email") = normalizeEmail L (body1.get "email"))
    (huser : jsTrim (strOrEmpty (body2.get "username")) ≠ "")
    (hpass : 6 ≤ jsLength (strOrEmpty (body2.get "password")))
    (hfirst : (signup L env1 cx1 db body1).status = some 201) :
    (signup L env2 cx2 (signup L env1 cx1 db body1).db body2).outcome
        = .responded (reply 409 "Email is already registered.")
      ∧ (signup L env2 cx2 (signup L env1 cx1 db body1).db body2).db
        = (signup L env1 cx1 db body1).db
      ∧ (signup L env2 cx2 (signup L env1 cx1 db body1).db body2).ops
        = [.findOne (normalizeEmail L (body2.get "email"))] := by
  obtain ⟨_, he, _, _, hnone, token, _, _, hdb⟩ := signup_201 L env1 cx1 db body1 hfirst
  have hfound : User.findOne L (signup L env1 cx1 db body1).db (normalizeEmail L (body2.get "email"))
      = some (signupDoc L cx1 body1) := by
    rw [hdb, hemail]
    exact findOne_append_of_none L db _ _ rfl hnone
  have hp : strOrEmpty (body2.get "password") ≠ "" := by
    intro h0
    rw [h0, jsLength_empty] at hpass
    omega
  have he2 : normalizeEmail L (body2.get "email") ≠ "" := by rw [hemail]; exact he
  generalize (signup L env1 cx1 db body1).db = db1 at hfound ⊢
  unfold signup
  simp only [hfound]
  simp [huser, he2, hp, Nat.not_lt.mpr hpass]

/-- C2 at concrete requests: "Bay@Ex.com " first, then " BAY@ex.COM". -/
theorem second_signup_same_email_is_409_witness :
    (signup demoLib demoEnv ⟨2000, "pepper", 8⟩
        (signup demoLib demoEnv ⟨1000, "salt", 7⟩ []
          [("username", .str "bayla"), ("email", .str "Bay@Ex.com "),
           ("password", .str "secret1")]).db
        [("username", .str "other"), ("email", .str " BAY@ex.COM"),
         ("password", .str "hunter22")]).outcome
      = .responded (reply 409 "Email is already registered.") :=
  (second_signup_same_email_is_409 demoLib demoEnv demoEnv ⟨1000, "salt", 7⟩ ⟨2000, "pepper", 8⟩ []
    [("username", .str "bayla"), ("email", .str "Bay@Ex.com "), ("password", .str "secret1")]
    [("username", .str "other"), ("email", .str " BAY@ex.COM"), ("password", .str "hunter22")]
    (by decide) (by decide) (by decide) (by decide)).1

/-! ## Login failures -/

/-- C3: for a login request with non-empty normalized email and non-empty
password, the controller's answer on a collection with no record for the
email and its answer on a collection where the record exists but
`bcrypt.compare` says no are both status 401 with the body
`{ message: "Invalid credentials." }`, hence the same. -/
theorem login_unknown_email_same_as_wrong_password (L : Lib) (env env2 : ProcessEnv)
    (cx cx2 : Ctx) (db db2 : Db) (body : JsObj) (user : User)
    (hemail : normalizeEmail L (body.get "email") ≠ "")
    (hpass : strOrEmpty (body.get "password") ≠ "")
    (hnone : User.findOne L db (normalizeEmail L (body.get "email")) = none)
    (hsome : User.findOne L db2 (normalizeEmail L (body.get "email")) = some user)
    (hbad : L.bcryptCompare (strOrEmpty (body.get "password")) user.passwordHash = false) :
    (login L env cx db body).outcome = .responded (reply 401 "Invalid credentials.")
      ∧ (login L env2 cx2 db2 body).outcome = .responded (reply 401 "Invalid credentials.")
      ∧ (login L env cx db body).outcome = (login L env2 cx2 db2 body).outcome := by
  have h1 : (login L env cx db body).outcome = .responded (reply 401 "Invalid credentials.") := by
    unfold login
    simp only [hnone]
    simp [hemail, hpass]
  have h2 : (login L env2 cx2 db2 body).outcome
      = .responded (reply 401 "Invalid credentials.") := by
    unfold login
    simp only [hsome, hbad]
    simp [hemail, hpass]
  exact ⟨h1, h2, h1.trans h2.symm⟩

/-- C3 at a concrete request: an empty collection against one that holds the
account, asked with a wrong password. -/
theorem login_unknown_email_same_as_wrong_password_witness :
    (login demoLib demoEnv ⟨3000, "x", 9⟩ []
        [("email", .str "bay@ex.com"), ("password", .str "wrong-one")]).outcome
      = (login demoLib demoEnv ⟨3000, "x", 9⟩
        [{ _id := 7, username := "bayla", email := "bay@ex.com", passwordHash := "salt$secret1",
           role := "user", favorites := [], savedList := [], createdAt := 1000,
           updatedAt := 1000 }]
        [("email", .str "bay@ex.com"), ("password", .str "wrong-one")]).outcome :=
  (login_unknown_email_same_as_wrong_password demoLib demoEnv demoEnv ⟨3000, "x", 9⟩
    ⟨3000, "x", 9⟩ []
    [{ _id := 7, username := "bayla", email := "bay@ex.com", passwordHash := "salt$secret1",
       role := "user", favorites := [], savedList := [], createdAt := 1000, updatedAt := 1000 }]
    [("email", .str "bay@ex.com"), ("password", .str "wrong-one")]
    { _id := 7, username := "bayla", email := "bay@ex.com", passwordHash := "salt$secret1",
      role := "user", favorites := [], savedList := [], createdAt := 1000, updatedAt := 1000 }
    (by decide) (by decide) (by decide) (by decide) (by decide)).2.2

/-! ## What a successful signup or login stores and returns -/

theorem get_skip_role (v : JsVal) (body : JsObj) (key : String) (hk : key ≠ "role") :
    JsObj.get (("role", v) :: body) key = JsObj.get body key := by
  have hne : ("role" == key) = false := by
    rw [beq_eq_false_iff_ne]
    exact fun h => hk h.symm
  simp [JsObj.get, List.find?, hne]

/-- C4: whatever the body of a signup answered 201 holds, the one record it
adds to the collection has role "user", the token it returns is signed over
claims whose role is "user", and the `role` of the returned user view is
"user"; a `role` field put in front of the body changes nothing in what the
controller does. -/
theorem signup_role_is_user (L : Lib) (env : ProcessEnv) (cx : Ctx) (db : Db) (body : JsObj)
    (h : (signup L env cx db body).status = some 201) :
    (∃ user token secret t,
        (signup L env cx db body).db = db ++ [user]
        ∧ user.role = "user"
        ∧ env.JWT_SECRET = some secret
        ∧ token = L.jwsEncode
            { userId := user._id, role := "user", iat := cx.now, exp := cx.now + t } secret
        ∧ (signup L env cx db body).outcome
          = .responded
              { status := 201,
                body := .obj [("token", .str token),
                              ("user", .obj [("id", .num user._id),
                                             ("username", .str user.username),
                                             ("email", .str user.email),
                                             ("role", .str "user")])] })
      ∧ ∀ v : JsVal, signup L env cx db (("role", v) :: body) = signup L env cx db body := by
  constructor
  · obtain ⟨_, _, _, _, _, token, ht, hout, hdb⟩ := signup_201 L env cx db body h
    obtain ⟨secret, e, t, hs, _, _, _, htok⟩ := signToken_ok L env cx.now cx.oid "user" token ht
    exact ⟨signupDoc L cx body, token, secret, t, hdb, rfl, hs, htok, hout⟩
  · intro v
    unfold signup normalizeEmail
    rw [get_skip_role v body "username" (by decide), get_skip_role v body "email" (by decide),
      get_skip_role v body "password" (by decide)]

/-- C4 at a concrete request that asks for the admin role. -/
theorem signup_role_is_user_witness :
    ∃ user token secret t,
      (signup demoLib demoEnv ⟨1000, "salt", 7⟩ []
          [("role", .str "admin"), ("username", .str "bayla"), ("email", .str "Bay@Ex.com "),
           ("password", .str "secret1")]).db = [] ++ [user]
      ∧ user.role = "user"
      ∧ demoEnv.JWT_SECRET = some secret
      ∧ token = demoLib.jwsEncode
          { userId := user._id, role := "user", iat := 1000, exp := 1000 + t } secret
      ∧ (signup demoLib demoEnv ⟨1000, "salt", 7⟩ []
          [("role", .str "admin"), ("username", .str "bayla"), ("email", .str "Bay@Ex.com "),
           ("password", .str "secret1")]).outcome
        = .responded
            { status := 201,
              body := .obj [("token", .str token),
                            ("user", .obj [("id", .num user._id),
                                           ("username", .str user.username),
                                           ("email", .str user.email),
                                           ("role", .str "user")])] } :=
  (signup_role_is_user demoLib demoEnv ⟨1000, "salt", 7⟩ []
    [("role", .str "admin"), ("username", .str "bayla"), ("email", .str "Bay@Ex.com "),
     ("password", .str "secret1")] (by decide)).1

/-- C5: the body of a signup answered 201, and of a login answered 200, is
the object `{ token, user }` whose `user` is the object with the four fields
`id`, `username`, `email`, `role`, in that order and no other, read from a
record of the collection (after the signup, for signup); the token is what
`signToken` returns for that record's `_id` and `role`.  No field of the body
carries the record's `passwordHash` or the request's password: two signups
answered 201 that differ in nothing but the password get the same answer. -/
theorem auth_success_body_is_token_and_redacted_user (L : Lib) (env : ProcessEnv) (cx : Ctx)
    (db : Db) (body : JsObj) :
    ((signup L env cx db body).status = some 201 →
        ∃ user token, user ∈ (signup L env cx db body).db
          ∧ signToken L env cx.now user._id user.role = .ok token
          ∧ (signup L env cx db body).outcome
            = .responded
                { status := 201,
                  body := .obj [("token", .str token),
                                ("user", .obj [("id", .num user._id),
                                               ("username", .str user.username),
                                               ("email", .str user.email),
                                               ("role", .str user.role)])] })
      ∧ ((login L env cx db body).status = some 200 →
        ∃ user token, user ∈ db
          ∧ signToken L env cx.now user._id user.role = .ok token
          ∧ (login L env cx db body).outcome
            = .responded
                { status := 200,
                  body := .obj [("token", .str token),
                                ("user", .obj [("id", .num user._id),
                                               ("username", .str user.username),
                                               ("email", .str user.email),
                                               ("role", .str user.role)])] })
      ∧ (∀ body2 : JsObj,
          body2.get "username" = body.get "username" →
          body2.get "email" = body.get "email" →
          (signup L env cx db body).status = some 201 →
          (signup L env cx db body2).status = some 201 →
          (signup L env cx db body2).outcome = (signup L env cx db body).outcome) := by
  refine ⟨?_, ?_, ?_⟩
  · intro h
    obtain ⟨_, _, _, _, _, token, ht, hout, hdb⟩ := signup_201 L env cx db body h
    refine ⟨signupDoc L cx body, token, ?_, ht, hout⟩
    rw [hdb]
    simp
  · intro h
    obtain ⟨user, token, hf, _, ht, hout, _⟩ := login_200 L env cx db body h
    exact ⟨user, token, List.mem_of_find?_eq_some hf, ht, hout⟩
  · intro body2 hu he h1 h2
    obtain ⟨_, _, _, _, _, token, ht, hout, _⟩ := signup_201 L env cx db body h1
    obtain ⟨_, _, _, _, _, token2, ht2, hout2, _⟩ := signup_201 L env cx db body2 h2
    have htok : token2 = token := by
      rw [ht] at ht2
      cases ht2
      rfl
    rw [hout, hout2, htok]
    simp only [authBody, signupDoc, normalizeEmail, hu, he]

/-- C5 at concrete requests: the signup of "bayla" and the login that
follows it. -/
theorem auth_success_body_is_token_and_redacted_user_witness :
    (∃ user token, user ∈ (signup demoLib demoEnv ⟨1000, "salt", 7⟩ []
          [("username", .str "bayla"), ("email", .str "Bay@Ex.com "),
           ("password", .str "secret1")]).db
        ∧ signToken demoLib demoEnv 1000 user._id user.role = .ok token
        ∧ (signup demoLib demoEnv ⟨1000, "salt", 7⟩ []
          [("username", .str "bayla"), ("email", .str "Bay@Ex.com "),
           ("password", .str "secret1")]).outcome
          = .responded
              { status := 201,
                body := .obj [("token", .str token),
                              ("user", .obj [("id", .num user._id),
                                             ("username", .str user.username),
                                             ("email", .str user.email),
                                             ("role", .str user.role)])] })
      ∧ (∃ user token, user ∈ [demoUser]
        ∧ signToken demoLib demoEnv 2000 user._id user.role = .ok token
        ∧ (login demoLib demoEnv ⟨2000, "unused", 8⟩
          [demoUser]
          [("email", .str "bay@ex.com"), ("password", .str "secret1")]).outcome
          = .responded
              { status := 200,
                body := .obj [("token", .str token),
                              ("user", .obj [("id", .num user._id),
                                             ("username", .str user.username),
                                             ("email", .str user.email),
                                             ("role", .str user.role)])] }) :=
  ⟨(auth_success_body_is_token_and_redacted_user demoLib demoEnv ⟨1000, "salt", 7⟩ []
      [("username", .str "bayla"), ("email", .str "Bay@Ex.com "),
       ("password", .str "secret1")]).1 (by decide),
   (auth_success_body_is_token_and_redacted_user demoLib demoEnv ⟨2000, "unused", 8⟩
      [demoUser]
      [("email", .str "bay@ex.com"), ("password", .str "secret1")]).2.1 (by decide)⟩

/-! ## Signup then login -/

/-- C6: if `bcrypt.compare` accepts the signup's password against the hash
the signup stored, then after a signup answered 201 a login whose email is
the same after trimming and lower-casing and whose password is the same is
answered 200, and both bodies are built from one and the same record, so
they carry the same user id. -/
theorem login_after_signup_returns_same_user (L : Lib) (env : ProcessEnv) (cx1 cx2 : Ctx)
    (db : Db) (body1 body2 : JsObj)
    (hverify : L.bcryptCompare (strOrEmpty (body1.get "password"))
      (L.bcryptHash (strOrEmpty (body1.get "password")) cx1.salt) = true)
    (hfirst : (signup L env cx1 db body1).status = some 201)
    (hemail : normalizeEmail L (body2.get "email") = normalizeEmail L (body1.get "email"))
    (hpass : strOrEmpty (body2.get "password") = strOrEmpty (body1.get "password")) :
    ∃ user token1 token2,
      (signup L env cx1 db body1).outcome
          = .responded { status := 201, body := authBody token1 user }
        ∧ (login L env cx2 (signup L env cx1 db body1).db body2).outcome
          = .responded { status := 200, body := authBody token2 user }
        ∧ (login L env cx2 (signup L env cx1 db body1).db body2).status = some 200 := by
  obtain ⟨_, he, hp, _, hnone, token1, ht, hout, hdb⟩ := signup_201 L env cx1 db body1 hfirst
  obtain ⟨token2, ht2⟩ := signToken_ok_again L env cx1.now cx1.oid "user" token1 ht
    cx2.now (signupDoc L cx1 body1)._id (signupDoc L cx1 body1).role
  have hfound : User.findOne L (signup L env cx1 db body1).db (normalizeEmail L (body2.get "email"))
      = some (signupDoc L cx1 body1) := by
    rw [hdb, hemail]
    exact findOne_append_of_none L db _ _ rfl hnone
  have hcmp : L.bcryptCompare (strOrEmpty (body2.get "password"))
      (signupDoc L cx1 body1).passwordHash = true := by
    rw [hpass]
    exact hverify
  have he2 : normalizeEmail L (body2.get "email") ≠ "" := by rw [hemail]; exact he
  have hp2 : strOrEmpty (body2.get "password") ≠ "" := by rw [hpass]; exact hp
  refine ⟨signupDoc L cx1 body1, token1, token2, hout, ?_⟩
  generalize (signup L env cx1 db body1).db = db1 at hfound ⊢
  unfold login
  simp only [hfound, hcmp, ht2]
  simp [he2, hp2, Run.status]

/-- C6 on the scenario of the specification: signup with "Bay@Ex.com ",
login with "bay@ex.com", password "secret1". -/
theorem login_after_signup_returns_same_user_witness :
    ∃ user token1 token2,
      (signup demoLib demoEnv ⟨1000, "salt", 7⟩ []
          [("username", .str "bayla"), ("email", .str "Bay@Ex.com "),
           ("password", .str "secret1")]).outcome
          = .responded { status := 201, body := authBody token1 user }
        ∧ (login demoLib demoEnv ⟨2000, "unused", 8⟩
            (signup demoLib demoEnv ⟨1000, "salt", 7⟩ []
              [("username", .str "bayla"), ("email", .str "Bay@Ex.com "),
               ("password", .str "secret1")]).db
            [("email", .str "bay@ex.com"), ("password", .str "secret1")]).outcome
          = .responded { status := 200, body := authBody token2 user }
        ∧ (login demoLib demoEnv ⟨2000, "unused", 8⟩
            (signup demoLib demoEnv ⟨1000, "salt", 7⟩ []
              [("username", .str "bayla"), ("email", .str "Bay@Ex.com "),
               ("password", .str "secret1")]).db
            [("email", .str "bay@ex.com"), ("password", .str "secret1")]).status = some 200 :=
  login_after_signup_returns_same_user demoLib demoEnv ⟨1000, "salt", 7⟩ ⟨2000, "unused", 8⟩ []
    [("username", .str "bayla"), ("email", .str "Bay@Ex.com "), ("password", .str "secret1")]
    [("email", .str "bay@ex.com"), ("password", .str "secret1")]
    (by decide) (by decide) (by decide) (by decide)

/-! ## The auth middleware -/

theorem startsWith_bearer (token : String) : jsStartsWith ("Bearer " ++ token) "Bearer " = true := by
  simp [jsStartsWith, String.data_append]

theorem slice_bearer (token : String) : jsSlice ("Bearer " ++ token) 7 = token := by
  have h : ("Bearer " ++ token).data = "Bearer ".data ++ token.data := String.data_append _ _
  have h7 : "Bearer ".data.length = 7 := by decide
  unfold jsSlice
  rw [h, ← h7, List.drop_left]

/-- C7: when the `authorization` header is not there, does not start with
"Bearer ", or has nothing after "Bearer ", the middleware sends 401
`{ message: "Missing token." }` and does nothing else: it does not call
`next`, it leaves the request object (and so `req.user`) as it was, and no
handler mounted after it on a route is entered. -/
theorem auth_missing_token_is_401 (L : Lib) (env : ProcessEnv) (now : Nat) (req : Req)
    (h : req.authorization = none
      ∨ ∃ s, req.authorization = some s
          ∧ (jsStartsWith s "Bearer " = false ∨ jsSlice s 7 = "")) :
    (auth L env now req).acts = [.send (reply 401 "Missing token.")]
      ∧ (auth L env now req).req = req
      ∧ ∀ (controllers : String → Handler) (rest : List Mw),
          runChain { lib := L, env := env, now := now, controllers := controllers }
              (.auth :: rest) req
            = [.entered .auth, .sent (reply 401 "Missing token.")] := by
  have key : auth L env now req = { req := req, acts := [.send (reply 401 "Missing token.")] } := by
    unfold auth
    rcases h with h | ⟨s, hs, h | h⟩
    · simp [h, headerOrEmpty, jsStartsWith]
    · simp [hs, headerOrEmpty, h]
    · simp [hs, headerOrEmpty, h]
  refine ⟨by rw [key], by rw [key], ?_⟩
  intro controllers rest
  simp [runChain, Mw.handler, key, runActs]

/-- C7 at a concrete request that carries a Basic scheme header. -/
theorem auth_missing_token_is_401_witness :
    (auth demoLib demoEnv 1500 ⟨some "Basic dXNlcjpwdw==", [], none⟩).acts
        = [.send (reply 401 "Missing token.")]
      ∧ (auth demoLib demoEnv 1500 ⟨some "Basic dXNlcjpwdw==", [], none⟩).req
        = ⟨some "Basic dXNlcjpwdw==", [], none⟩ :=
  ⟨(auth_missing_token_is_401 demoLib demoEnv 1500 ⟨some "Basic dXNlcjpwdw==", [], none⟩
      (Or.inr ⟨"Basic dXNlcjpwdw==", rfl, Or.inl (by decide)⟩)).1,
   (auth_missing_token_is_401 demoLib demoEnv 1500 ⟨some "Basic dXNlcjpwdw==", [], none⟩
      (Or.inr ⟨"Basic dXNlcjpwdw==", rfl, Or.inl (by decide)⟩)).2.1⟩

theorem auth_bearer (L : Lib) (env : ProcessEnv) (now : Nat) (req : Req) (token secret : String)
    (hh : req.authorization = some ("Bearer " ++ token)) (ht : token ≠ "")
    (hs : env.JWT_SECRET = some secret) (hne : secret ≠ "") :
    auth L env now req
      = match jwtVerify L token secret now with
        | .ok decoded => { req := { req with user := some decoded }, acts := [.next] }
        | .error _ => { req := req, acts := [.send (reply 401 "Invalid or expired token.")] } := by
  unfold auth
  simp only [hh, headerOrEmpty, startsWith_bearer, slice_bearer, if_true, hs]
  simp [ht, hne]

/-- C8, as the code has it: with `JWT_SECRET` set and not empty, a request
whose header is "Bearer " followed by a token that `jwt.verify` rejects
(malformed, wrongly signed or expired) is answered 401, "Missing token." for
the empty token and "Invalid or expired token." otherwise; the middleware
does not call `next`, leaves the request object as it was, and no handler
mounted after it is entered. -/
theorem auth_rejected_token_is_401 (L : Lib) (env : ProcessEnv) (now : Nat) (req : Req)
    (token secret : String) (e : JsError)
    (hs : env.JWT_SECRET = some secret) (hne : secret ≠ "")
    (hh : req.authorization = some ("Bearer " ++ token))
    (hfail : jwtVerify L token secret now = .error e) :
    (auth L env now req).acts
        = [.send (reply 401 (if token = "" then "Missing token." else "Invalid or expired token."))]
      ∧ (auth L env now req).req = req
      ∧ ∀ (controllers : String → Handler) (rest : List Mw),
          runChain { lib := L, env := env, now := now, controllers := controllers }
              (.auth :: rest) req
            = [.entered .auth,
               .sent (reply 401
                 (if token = "" then "Missing token." else "Invalid or expired token."))] := by
  have key : auth L env now req
      = { req := req,
          acts := [.send (reply 401
            (if token = "" then "Missing token." else "Invalid or expired token."))] } := by
    by_cases ht : token = ""
    · subst ht
      have h0 : jsSlice "Bearer " 7 = "" := by decide
      unfold auth
      simp [hh, headerOrEmpty, h0]
    · rw [auth_bearer L env now req token secret hh ht hs hne, hfail]
      simp [ht]
  refine ⟨by rw [key], by rw [key], ?_⟩
  intro controllers rest
  simp [runChain, Mw.handler, key, runActs]

/-- C8 at the request of the specification's scenario, `Bearer garbage`, with
a secret configured. -/
theorem auth_rejected_token_is_401_witness :
    (auth demoLib demoEnv 1500 ⟨some "Bearer garbage", [], none⟩).acts
      = [.send (reply 401 (if "garbage" = "" then "Missing token." else "Invalid or expired token."))] :=
  (auth_rejected_token_is_401 demoLib demoEnv 1500 ⟨some "Bearer garbage", [], none⟩
    "garbage" "s3cr3t" { name := "JsonWebTokenError", message := "invalid token", code := none }
    rfl (by decide) rfl rfl).1

/-- C8 as stated fails when no secret is configured: the token `garbage` is
rejected by `jwt.verify` under every secret and at every time, yet with
`JWT_SECRET` unset the middleware answers `Bearer garbage` with status 500
"JWT secret missing.", a server error. -/
theorem auth_garbage_without_secret_is_500 :
    (∀ secret now, jwtVerify demoLib "garbage" secret now
        = .error { name := "JsonWebTokenError", message := "invalid token", code := none })
      ∧ (auth demoLib { JWT_SECRET := none, JWT_EXPIRES_IN := none } 1500
          ⟨some "Bearer garbage", [], none⟩).acts
        = [.send { status := 500, body := .obj [("message", .str "JWT secret missing.")] }] :=
  ⟨fun _ _ => rfl, rfl⟩

/-- C9: with `JWT_SECRET` set, a request whose header is "Bearer " followed by
a non-empty token that `jwt.verify` accepts leaves the middleware with
`req.user` set to the decoded claims and everything else as it was; the
middleware calls `next` once and sends nothing.  When the token is the
signing of some claims and the signing primitive reads back what it wrote,
`req.user` is those claims, so `userId` and `role` are the ones the token was
issued with. -/
theorem auth_verified_sets_user_and_calls_next (L : Lib) (env : ProcessEnv) (now : Nat)
    (req : Req) (token secret : String) (c : Claims)
    (hs : env.JWT_SECRET = some secret) (hne : secret ≠ "")
    (hh : req.authorization = some ("Bearer " ++ token)) (ht : token ≠ "")
    (hv : jwtVerify L token secret now = .ok c) :
    (auth L env now req).req = { req with user := some c }
      ∧ (auth L env now req).acts = [.next]
      ∧ ∀ issued : Claims, token = L.jwsEncode issued secret →
          L.jwsDecode (L.jwsEncode issued secret) secret = some issued →
          (auth L env now req).req.user = some issued
            ∧ c.userId = issued.userId ∧ c.role = issued.role := by
  have key := auth_bearer L env now req token secret hh ht hs hne
  rw [hv] at key
  refine ⟨by rw [key], by rw [key], ?_⟩
  intro issued htok hrt
  have hc : c = issued := by
    unfold jwtVerify at hv
    rw [htok, hrt] at hv
    simp only at hv
    split at hv
    · cases hv
      rfl
    · cases hv
  subst hc
  exact ⟨by rw [key], rfl, rfl⟩

/-- C9 at a concrete request: a token issued at 1000 for user 7, presented at
1500. -/
theorem auth_verified_sets_user_and_calls_next_witness :
    (auth demoLib demoEnv 1500 ⟨some "Bearer 7.user.1000.605800.s3cr3t", [], none⟩).req
        = ⟨some "Bearer 7.user.1000.605800.s3cr3t", [], some ⟨7, "user", 1000, 605800⟩⟩
      ∧ (auth demoLib demoEnv 1500 ⟨some "Bearer 7.user.1000.605800.s3cr3t", [], none⟩).acts
        = [.next]
      ∧ (auth demoLib demoEnv 1500 ⟨some "Bearer 7.user.1000.605800.s3cr3t", [], none⟩).req.user
        = some ⟨7, "user", 1000, 605800⟩ :=
  have h := auth_verified_sets_user_and_calls_next demoLib demoEnv 1500
    ⟨some "Bearer 7.user.1000.605800.s3cr3t", [], none⟩ "7.user.1000.605800.s3cr3t" "s3cr3t"
    ⟨7, "user", 1000, 605800⟩ rfl (by decide) rfl (by decide) rfl
  ⟨h.1, h.2.1, (h.2.2 ⟨7, "user", 1000, 605800⟩ (by decide) (by decide)).1⟩

/-! ## The admin routes -/

/-- C10: on each of the four admin routes the handlers are the auth
middleware, then the role gate, then one controller, in that order.  For a
request whose token verifies, with role "user" the route answers 403 from the
role gate and the controller is not entered; with role "admin" the controller
is entered on the request as the auth middleware left it (the role gate
changes nothing) and what follows is the controller's doing. -/
theorem admin_routes_gate_on_role (S : Stack) (r : Route) (req : Req) (token secret : String)
    (c : Claims) (hr : r ∈ adminRoutes)
    (hs : S.env.JWT_SECRET = some secret) (hne : secret ≠ "")
    (hh : req.authorization = some ("Bearer " ++ token)) (ht : token ≠ "")
    (hv : jwtVerify S.lib token secret S.now = .ok c) :
    ∃ name, r.chain = [.auth, .adminOnly, .controller name]
      ∧ (c.role = "user" →
          runChain S r.chain req
            = [.entered .auth, .entered .adminOnly, .sent (reply 403 "Forbidden.")])
      ∧ (c.role = "admin" →
          runChain S r.chain req
            = [.entered .auth, .entered .adminOnly, .entered (.controller name)]
              ++ runActs (fun _ => []) (S.controllers name { req with user := some c }).req
                  (S.controllers name { req with user := some c }).acts) := by
  have key := auth_bearer S.lib S.env S.now req token secret hh ht hs hne
  rw [hv] at key
  have hchain : ∃ name, r.chain = [.auth, .adminOnly, .controller name] := by
    simp only [adminRoutes, List.mem_cons, List.mem_singleton, List.not_mem_nil, or_false] at hr
    rcases hr with h | h | h | h <;> subst h <;> exact ⟨_, rfl⟩
  obtain ⟨name, hc⟩ := hchain
  refine ⟨name, hc, ?_, ?_⟩
  · intro hrole
    rw [hc]
    simp [runChain, Mw.handler, key, runActs, adminOnly, hrole]
  · intro hrole
    rw [hc]
    simp [runChain, Mw.handler, key, runActs, adminOnly, hrole]

/-- C10 at concrete requests to `GET /users`, one with a token of role "user"
and one with a token of role "admin"; the controller answers 200. -/
theorem admin_routes_gate_on_role_witness :
    runChain ⟨demoLib, demoEnv, 1500, fun _ q => ⟨q, [.send (reply 200 "ok")]⟩⟩
        [.auth, .adminOnly, .controller "listUsers"]
        ⟨some "Bearer 7.user.1000.605800.s3cr3t", [], none⟩
      = [.entered .auth, .entered .adminOnly, .sent (reply 403 "Forbidden.")]
    ∧ runChain ⟨demoLib, demoEnv, 1500, fun _ q => ⟨q, [.send (reply 200 "ok")]⟩⟩
        [.auth, .adminOnly, .controller "listUsers"]
        ⟨some "Bearer 1.admin.1000.605800.s3cr3t", [], none⟩
      = [.entered .auth, .entered .adminOnly, .entered (.controller "listUsers"),
         .sent (reply 200 "ok")] := by
  obtain ⟨n1, h1, hu, _⟩ := admin_routes_gate_on_role
    ⟨demoLib, demoEnv, 1500, fun _ q => ⟨q, [.send (reply 200 "ok")]⟩⟩
    ⟨"GET", "/users", [.auth, .adminOnly, .controller "listUsers"]⟩
    ⟨some "Bearer 7.user.1000.605800.s3cr3t", [], none⟩ "7.user.1000.605800.s3cr3t" "s3cr3t"
    ⟨7, "user", 1000, 605800⟩ (by decide) rfl (by decide) rfl (by decide) rfl
  obtain ⟨n2, h2, _, ha⟩ := admin_routes_gate_on_role
    ⟨demoLib, demoEnv, 1500, fun _ q => ⟨q, [.send (reply 200 "ok")]⟩⟩
    ⟨"GET", "/users", [.auth, .adminOnly, .controller "listUsers"]⟩
    ⟨some "Bearer 1.admin.1000.605800.s3cr3t", [], none⟩ "1.admin.1000.605800.s3cr3t" "s3cr3t"
    ⟨1, "admin", 1000, 605800⟩ (by decide) rfl (by decide) rfl (by decide) rfl
  have hn : n2 = "listUsers" := by
    simp only [List.cons.injEq, Mw.controller.injEq, and_true, true_and] at h2
    exact h2.symm
  subst hn
  exact ⟨hu rfl, ha rfl⟩

/-! ## The token service -/

theorem signToken_eq (L : Lib) (env : ProcessEnv) (now : Nat) (uid : ObjectId) (role secret : String)
    (hs : env.JWT_SECRET = some secret) (hne : secret ≠ "") :
    signToken L env now uid role
      = match L.timespan (configuredExpiresIn env) with
        | none =>
          .error { name := "Error",
                   message := "expiresIn should be a number of seconds or string representing a timespan",
                   code := none }
        | some t =>
          .ok (L.jwsEncode { userId := uid, role := role, iat := now, exp := now + t } secret) := by
  unfold signToken
  simp only [hs]
  have h : (secret == "") = false := by simpa using hne
  simp only [h, jwtSign, configuredExpiresIn]
  rfl

theorem signToken_no_secret (L : Lib) (env : ProcessEnv) (now : Nat) (uid : ObjectId)
    (role : String) (hs : env.JWT_SECRET = none ∨ env.JWT_SECRET = some "") :
    signToken L env now uid role
      = .error { name := "Error", message := "JWT_SECRET missing in backend/.env", code := none } := by
  unfold signToken
  rcases hs with hs | hs <;> simp [hs]

/-- C11: with a non-empty `JWT_SECRET` and a lifetime `T` read from the
configured `expiresIn`, `signToken` returns a token for the payload
`{ userId, role }`, and, the signing primitive reading back what it wrote,
`jwt.verify` with the same secret at any time before `now + T` returns
exactly `userId`, `role`, the issued-at stamp `now` and the expires-at stamp
`now + T`; presented as a non-empty Bearer token, the auth middleware puts
these claims in `req.user`. -/
theorem signToken_then_verify_returns_claims (L : Lib) (env : ProcessEnv) (now later T : Nat)
    (uid : ObjectId) (role secret : String)
    (hs : env.JWT_SECRET = some secret) (hne : secret ≠ "")
    (hT : L.timespan (configuredExpiresIn env) = some T)
    (hrt : L.jwsDecode
        (L.jwsEncode { userId := uid, role := role, iat := now, exp := now + T } secret) secret
      = some { userId := uid, role := role, iat := now, exp := now + T })
    (hlt : later < now + T) :
    ∃ token, signToken L env now uid role = .ok token
      ∧ jwtVerify L token secret later
        = .ok { userId := uid, role := role, iat := now, exp := now + T }
      ∧ ∀ req : Req, req.authorization = some ("Bearer " ++ token) → token ≠ "" →
          (auth L env later req).req.user
            = some { userId := uid, role := role, iat := now, exp := now + T } := by
  have hv : jwtVerify L
      (L.jwsEncode { userId := uid, role := role, iat := now, exp := now + T } secret) secret later
      = .ok { userId := uid, role := role, iat := now, exp := now + T } := by
    unfold jwtVerify
    rw [hrt]
    simp [hlt]
  refine ⟨L.jwsEncode { userId := uid, role := role, iat := now, exp := now + T } secret, ?_, hv, ?_⟩
  · rw [signToken_eq L env now uid role secret hs hne, hT]
  · intro req hh ht
    rw [auth_bearer L env later req _ secret hh ht hs hne, hv]

/-- C11 at concrete claims: user 7 with role "user", issued at 1000 with the
default lifetime, verified one second before expiry. -/
theorem signToken_then_verify_returns_claims_witness :
    ∃ token, signToken demoLib demoEnv 1000 7 "user" = .ok token
      ∧ jwtVerify demoLib token "s3cr3t" 605799
        = .ok { userId := 7, role := "user", iat := 1000, exp := 1000 + 604800 }
      ∧ ∀ req : Req, req.authorization = some ("Bearer " ++ token) → token ≠ "" →
          (auth demoLib demoEnv 605799 req).req.user
            = some { userId := 7, role := "user", iat := 1000, exp := 1000 + 604800 } :=
  signToken_then_verify_returns_claims demoLib demoEnv 1000 605799 604800 7 "user" "s3cr3t"
    rfl (by decide) (by decide) (by decide) (by decide)

/-- C12: a token `signToken` issues at `now` expires at `now + T`, where `T`
is how jsonwebtoken reads `JWT_EXPIRES_IN` when that is set to a non-empty
value and how it reads "7d" otherwise (seven days when "7d" reads as 604800
seconds).  Presented as a Bearer token, the auth middleware lets it through
at every time before `now + T` and answers 401 at every time from `now + T`
on.  Times are whole seconds, as jsonwebtoken reads the clock. -/
theorem token_lifetime_and_expiry (L : Lib) (env : ProcessEnv) (now later T : Nat)
    (uid : ObjectId) (role secret token : String) (req : Req)
    (hissue : signToken L env now uid role = .ok token)
    (hs : env.JWT_SECRET = some secret)
    (hT : L.timespan (configuredExpiresIn env) = some T)
    (hrt : L.jwsDecode token secret
      = some { userId := uid, role := role, iat := now, exp := now + T })
    (hh : req.authorization = some ("Bearer " ++ token)) (ht : token ≠ "") :
    token = L.jwsEncode { userId := uid, role := role, iat := now, exp := now + T } secret
      ∧ (∀ e, env.JWT_EXPIRES_IN = some e → e ≠ "" → L.timespan e = some T)
      ∧ (env.JWT_EXPIRES_IN = none ∨ env.JWT_EXPIRES_IN = some "" →
          L.timespan "7d" = some T ∧ (L.timespan "7d" = some 604800 → T = 604800))
      ∧ (later < now + T → (auth L env later req).acts = [.next])
      ∧ (now + T ≤ later →
          (auth L env later req).acts = [.send (reply 401 "Invalid or expired token.")]) := by
  obtain ⟨secret2, e, t, hs2, hne, he, ht2, htok⟩ := signToken_ok L env now uid role token hissue
  have hsec : secret2 = secret := by
    rw [hs] at hs2
    cases hs2
    rfl
  subst hsec
  have hcfg : e = configuredExpiresIn env := by rw [he]; rfl
  subst hcfg
  have htT : t = T := by
    rw [hT] at ht2
    cases ht2
    rfl
  subst htT
  have key := auth_bearer L env later req token secret2 hh ht hs hne
  refine ⟨htok, ?_, ?_, ?_, ?_⟩
  · intro e he hne2
    have : configuredExpiresIn env = e := by simp [configuredExpiresIn, he, hne2]
    rw [← this]
    exact hT
  · intro h
    have : configuredExpiresIn env = "7d" := by
      rcases h with h | h <;> simp [configuredExpiresIn, h]
    rw [this] at hT
    refine ⟨hT, ?_⟩
    intro h7
    rw [hT] at h7
    cases h7
    rfl
  · intro hlt
    rw [key]
    simp [jwtVerify, hrt, hlt]
  · intro hge
    rw [key]
    simp [jwtVerify, hrt, Nat.not_lt.mpr hge]

/-- C12 at a concrete token: issued at 1000 with the default lifetime,
presented at 605799, one second before it expires. -/
theorem token_lifetime_and_expiry_witness :
    (auth demoLib demoEnv 605799 ⟨some "Bearer 7.user.1000.605800.s3cr3t", [], none⟩).acts
        = [.next]
      ∧ (auth demoLib demoEnv 605800 ⟨some "Bearer 7.user.1000.605800.s3cr3t", [], none⟩).acts
        = [.send (reply 401 "Invalid or expired token.")] :=
  ⟨(token_lifetime_and_expiry demoLib demoEnv 1000 605799 604800 7 "user" "s3cr3t"
      "7.user.1000.605800.s3cr3t" ⟨some "Bearer 7.user.1000.605800.s3cr3t", [], none⟩
      rfl rfl (by decide) (by decide) rfl (by decide)).2.2.2.1 (by decide),
   (token_lifetime_and_expiry demoLib demoEnv 1000 605800 604800 7 "user" "s3cr3t"
      "7.user.1000.605800.s3cr3t" ⟨some "Bearer 7.user.1000.605800.s3cr3t", [], none⟩
      rfl rfl (by decide) (by decide) rfl (by decide)).2.2.2.2 (by decide)⟩

/-- C13, as the code has it: when the configured `expiresIn` is a time span,
`signToken` throws exactly when `JWT_SECRET` is unset or empty; and whenever
it returns a token, `JWT_SECRET` is set to a non-empty secret and the token
is the payload signed with that secret. -/
theorem signToken_error_iff_secret_missing (L : Lib) (env : ProcessEnv) (now T : Nat)
    (uid : ObjectId) (role : String)
    (hT : L.timespan (configuredExpiresIn env) = some T) :
    ((∃ e, signToken L env now uid role = .error e)
        ↔ (env.JWT_SECRET = none ∨ env.JWT_SECRET = some ""))
      ∧ ∀ token, signToken L env now uid role = .ok token →
          ∃ secret, env.JWT_SECRET = some secret ∧ secret ≠ ""
            ∧ token = L.jwsEncode
                { userId := uid, role := role, iat := now, exp := now + T } secret := by
  constructor
  · constructor
    · rintro ⟨e, he⟩
      cases hsec : env.JWT_SECRET with
      | none => exact Or.inl rfl
      | some secret =>
        by_cases hne : secret = ""
        · subst hne
          exact Or.inr rfl
        · rw [signToken_eq L env now uid role secret hsec hne, hT] at he
          cases he
    · intro h
      exact ⟨_, signToken_no_secret L env now uid role h⟩
  · intro token htok
    obtain ⟨secret, e, t, hs, hne, he, ht, hto⟩ := signToken_ok L env now uid role token htok
    have hcfg : e = configuredExpiresIn env := by rw [he]; rfl
    subst hcfg
    rw [hT] at ht
    cases ht
    exact ⟨secret, hs, hne, hto⟩

/-- C13 at the default configuration with the secret unset. -/
theorem signToken_error_iff_secret_missing_witness :
    ∃ e, signToken demoLib { JWT_SECRET := none, JWT_EXPIRES_IN := none } 1000 7 "user"
      = .error e :=
  (signToken_error_iff_secret_missing demoLib { JWT_SECRET := none, JWT_EXPIRES_IN := none }
    1000 604800 7 "user" (by decide)).1.2 (Or.inl rfl)

/-- C13 as stated fails: with `JWT_SECRET` set to "s3cr3t" and
`JWT_EXPIRES_IN` set to "soon", which is not a time span, `signToken` throws
although the secret is there. -/
theorem signToken_throws_with_secret_present :
    signToken demoLib { JWT_SECRET := some "s3cr3t", JWT_EXPIRES_IN := some "soon" } 1000 7 "user"
      = .error
          { name := "Error",
            message := "expiresIn should be a number of seconds or string representing a timespan",
            code := none } :=
  rfl

/-! ## Errors on their way to the client -/

theorem signup_eq_interleaved (L : Lib) (env : ProcessEnv) (cx : Ctx) (db : Db) (body : JsObj) :
    signup L env cx db body = signupInterleaved L env cx db db body := rfl

/-- C14, as the code has it: with `JWT_SECRET` unset or empty, a signup or a
login that gets as far as `signToken` ends in `next(err)` with the error
"JWT_SECRET missing in backend/.env" and the client receives the error
handler's 500 "Server error."; a request with a non-empty Bearer token is
answered by the auth middleware itself, with 500 "JWT secret missing.", and
does not reach the error handler. -/
theorem missing_secret_responses (L : Lib) (env : ProcessEnv) (cx : Ctx) (db : Db)
    (body : JsObj) (now : Nat) (req : Req) (token : String)
    (hs : env.JWT_SECRET = none ∨ env.JWT_SECRET = some "") :
    (∀ uid role, Op.signToken uid role ∈ (signup L env cx db body).ops →
        (signup L env cx db body).outcome
            = .forwarded
                { name := "Error", message := "JWT_SECRET missing in backend/.env", code := none }
          ∧ (signup L env cx db body).response = reply 500 "Server error.")
      ∧ (∀ uid role, Op.signToken uid role ∈ (login L env cx db body).ops →
        (login L env cx db body).outcome
            = .forwarded
                { name := "Error", message := "JWT_SECRET missing in backend/.env", code := none }
          ∧ (login L env cx db body).response = reply 500 "Server error.")
      ∧ (req.authorization = some ("Bearer " ++ token) → token ≠ "" →
          (auth L env now req).acts = [.send (reply 500 "JWT secret missing.")]
            ∧ (auth L env now req).req = req) := by
  have hsign : ∀ n u r, signToken L env n u r
      = .error { name := "Error", message := "JWT_SECRET missing in backend/.env", code := none } :=
    fun n u r => signToken_no_secret L env n u r hs
  refine ⟨?_, ?_, ?_⟩
  · intro uid role hmem
    unfold signup at hmem ⊢
    simp only at hmem ⊢
    split at hmem
    · simp at hmem
    · split at hmem
      · simp at hmem
      · split at hmem
        · simp at hmem
        · split at hmem
          · simp at hmem
          · rename_i h1 h2 _ hf _ user db1 hc
            simp [h1, h2, hf, hc, hsign, Run.response, errorHandler]
  · intro uid role hmem
    unfold login at hmem ⊢
    simp only at hmem ⊢
    split at hmem
    · simp at hmem
    · split at hmem
      · simp at hmem
      · split at hmem
        · simp at hmem
        · rename_i h1 _ user hf hc
          simp [h1, hf, hc, hsign, Run.response, errorHandler]
  · intro hh ht
    unfold auth
    simp only [hh, headerOrEmpty, startsWith_bearer, slice_bearer, if_true]
    rcases hs with hs | hs <;> simp [hs, ht]

/-- C14 at concrete requests: a signup and a Bearer request with no secret in
the environment. -/
theorem missing_secret_responses_witness :
    (signup demoLib { JWT_SECRET := none, JWT_EXPIRES_IN := none } ⟨1000, "salt", 7⟩ []
        [("username", .str "bayla"), ("email", .str "Bay@Ex.com "),
         ("password", .str "secret1")]).response = reply 500 "Server error."
      ∧ (auth demoLib { JWT_SECRET := none, JWT_EXPIRES_IN := none } 1500
          ⟨some "Bearer 7.user.1000.605800.s3cr3t", [], none⟩).acts
        = [.send (reply 500 "JWT secret missing.")] :=
  have h := missing_secret_responses demoLib { JWT_SECRET := none, JWT_EXPIRES_IN := none }
    ⟨1000, "salt", 7⟩ []
    [("username", .str "bayla"), ("email", .str "Bay@Ex.com "), ("password", .str "secret1")]
    1500 ⟨some "Bearer 7.user.1000.605800.s3cr3t", [], none⟩ "7.user.1000.605800.s3cr3t"
    (Or.inl rfl)
  ⟨(h.1 7 "user" (by decide)).2, (h.2.2 rfl (by decide)).1⟩

/-- C14 as stated fails for the auth middleware: with no secret in the
environment a request carrying a Bearer token is answered by the middleware
itself (it sends, it does not call `next(err)`), and the body it sends,
"JWT secret missing.", is one the error handler never sends. -/
theorem auth_without_secret_bypasses_error_handler :
    (auth demoLib { JWT_SECRET := none, JWT_EXPIRES_IN := none } 1500
        ⟨some "Bearer 7.user.1000.605800.s3cr3t", [], none⟩).acts
        = [.send { status := 500, body := .obj [("message", .str "JWT secret missing.")] }]
      ∧ ∀ e : JsError,
          errorHandler e
            ≠ { status := 500, body := .obj [("message", .str "JWT secret missing.")] } := by
  refine ⟨rfl, ?_⟩
  intro e
  unfold errorHandler reply
  split <;> simp

/-- C15: when the email lookup of a signup finds no record and `User.create`,
run on the collection as it is by then, throws a duplicate-key error (code
11000), the controller hands the error to `next`, the collection is not
changed, and the client receives the error handler's conflict response:
status 409, the status of the lookup path's "Email is already registered."
(the message is "Duplicate value."). -/
theorem duplicate_key_on_create_is_409 (L : Lib) (env : ProcessEnv) (cx : Ctx)
    (db dbAtCreate : Db) (body : JsObj) (e : JsError)
    (huser : jsTrim (strOrEmpty (body.get "username")) ≠ "")
    (hemail : normalizeEmail L (body.get "email") ≠ "")
    (hpass : 6 ≤ jsLength (strOrEmpty (body.get "password")))
    (hpre : User.findOne L db (normalizeEmail L (body.get "email")) = none)
    (hcreate : User.create L cx.now cx.oid dbAtCreate
        { username := jsTrim (strOrEmpty (body.get "username")),
          email := normalizeEmail L (body.get "email"),
          passwordHash := L.bcryptHash (strOrEmpty (body.get "password")) cx.salt,
          role := "user" } = .error e)
    (hcode : e.code = some 11000) :
    (signupInterleaved L env cx db dbAtCreate body).outcome = .forwarded e
      ∧ (signupInterleaved L env cx db dbAtCreate body).db = dbAtCreate
      ∧ (signupInterleaved L env cx db dbAtCreate body).response = reply 409 "Duplicate value."
      ∧ (signupInterleaved L env cx db dbAtCreate body).response.status
          = (reply 409 "Email is already registered.").status := by
  have hp : strOrEmpty (body.get "password") ≠ "" := by
    intro h0
    rw [h0, jsLength_empty] at hpass
    omega
  have hrun : signupInterleaved L env cx db dbAtCreate body
      = { outcome := .forwarded e, db := dbAtCreate,
          ops := [Op.findOne (normalizeEmail L (body.get "email")), .genSalt 10,
                  .hash (strOrEmpty (body.get "password")) cx.salt,
                  .create
                    { username := jsTrim (strOrEmpty (body.get "username")),
                      email := normalizeEmail L (body.get "email"),
                      passwordHash := L.bcryptHash (strOrEmpty (body.get "password")) cx.salt,
                      role := "user" }] } := by
    unfold signupInterleaved
    simp only [hpre, hcreate]
    simp [huser, hemail, hp, Nat.not_lt.mpr hpass]
  rw [hrun]
  simp [Run.response, errorHandler, hcode, reply]

/-- C15 at a concrete race: the lookup ran on the empty collection, and by
the time of the create another signup had stored the same email. -/
theorem duplicate_key_on_create_is_409_witness :
    (signupInterleaved demoLib demoEnv ⟨2000, "pepper", 8⟩ [] [demoUser]
        [("username", .str "other"), ("email", .str " BAY@ex.COM"),
         ("password", .str "hunter22")]).response = reply 409 "Duplicate value." :=
  (duplicate_key_on_create_is_409 demoLib demoEnv ⟨2000, "pepper", 8⟩ [] [demoUser]
    [("username", .str "other"), ("email", .str " BAY@ex.COM"), ("password", .str "hunter22")]
    duplicateKeyError (by decide) (by decide) (by decide) (by decide) rfl rfl).2.2.1

/-- C16: the response of the error handler is 409 "Duplicate value." when the
error's code is 11000 and 500 "Server error." otherwise, so two errors that
agree on whether their code is 11000 get the same status and body, whatever
their names and messages. -/
theorem errorHandler_depends_only_on_code_test (e1 e2 : JsError)
    (h : (e1.code = some 11000) ↔ (e2.code = some 11000)) :
    errorHandler e1 = errorHandler e2
      ∧ (errorHandler e1 = reply 409 "Duplicate value."
          ∨ errorHandler e1 = reply 500 "Server error.")
      ∧ (e1.code = some 11000 → errorHandler e1 = reply 409 "Duplicate value.")
      ∧ (e1.code ≠ some 11000 → errorHandler e1 = reply 500 "Server error.") := by
  unfold errorHandler
  by_cases h1 : e1.code = some 11000
  · have h2 := h.mp h1
    simp [h1, h2]
  · have h2 : ¬ e2.code = some 11000 := fun h2 => h1 (h.mpr h2)
    simp [h1, h2]

/-- C16 at two concrete errors: a schema validation error and a missing
secret, neither with code 11000. -/
theorem errorHandler_depends_only_on_code_test_witness :
    errorHandler validationError
      = errorHandler
          { name := "Error", message := "JWT_SECRET missing in backend/.env", code := none } :=
  (errorHandler_depends_only_on_code_test validationError
    { name := "Error", message := "JWT_SECRET missing in backend/.env", code := none }
    (by decide)).1

/-- C17 fails on the code: a signup with the one-character username "a" (valid
email and password) stores nothing, but the schema's rejection reaches the
client through the error handler as 500 "Server error.", not as a 400. -/
theorem signup_one_char_username_is_500 :
    (signup demoLib demoEnv ⟨1000, "salt", 7⟩ []
        [("username", .str "a"), ("email", .str "a@ex.com"),
         ("password", .str "secret1")]).response = reply 500 "Server error."
      ∧ (signup demoLib demoEnv ⟨1000, "salt", 7⟩ []
        [("username", .str "a"), ("email", .str "a@ex.com"),
         ("password", .str "secret1")]).outcome = .forwarded validationError
      ∧ (signup demoLib demoEnv ⟨1000, "salt", 7⟩ []
        [("username", .str "a"), ("email", .str "a@ex.com"),
         ("password", .str "secret1")]).db = [] :=
  ⟨rfl, rfl, rfl⟩

/-! ## Trimming and the ASCII case mapping of the concrete instance -/

theorem trimEndChars_cons_of_nil (c : Char) (cs : List Char) (h : trimEndChars cs = []) :
    trimEndChars (c :: cs) = if isJsSpace c then [] else [c] := by
  simp [trimEndChars, h]

theorem trimEndChars_cons_of_ne (c : Char) (cs : List Char) (h : trimEndChars cs ≠ []) :
    trimEndChars (c :: cs) = c :: trimEndChars cs := by
  cases hr : trimEndChars cs with
  | nil => exact absurd hr h
  | cons a r => simp [trimEndChars, hr]

theorem trimEndChars_idem (l : List Char) : trimEndChars (trimEndChars l) = trimEndChars l := by
  induction l with
  | nil => rfl
  | cons c cs ih =>
    by_cases h : trimEndChars cs = []
    · rw [trimEndChars_cons_of_nil c cs h]
      by_cases hc : isJsSpace c = true
      · simp [hc, trimEndChars]
      · simp [hc, trimEndChars]
    · rw [trimEndChars_cons_of_ne c cs h, trimEndChars_cons_of_ne c (trimEndChars cs) (by rw [ih]; exact h),
        ih]

theorem dropWhile_trimEndChars (l : List Char) (h : l.dropWhile isJsSpace = l) :
    (trimEndChars l).dropWhile isJsSpace = trimEndChars l := by
  cases l with
  | nil => rfl
  | cons c cs =>
    have hc : isJsSpace c = false := by
      by_contra hc
      have hc2 : isJsSpace c = true := by simpa using hc
      have hlen := congrArg List.length h
      rw [List.dropWhile_cons_of_pos hc2] at hlen
      have := (List.dropWhile_sublist (l := cs) isJsSpace).length_le
      simp only [List.length_cons] at hlen
      omega
    by_cases hn : trimEndChars cs = []
    · rw [trimEndChars_cons_of_nil c cs hn]
      simp [hc]
    · rw [trimEndChars_cons_of_ne c cs hn]
      simp [hc]

theorem dropWhile_dropWhile_space (l : List Char) :
    (l.dropWhile isJsSpace).dropWhile isJsSpace = l.dropWhile isJsSpace := by
  induction l with
  | nil => rfl
  | cons c cs ih =>
    by_cases hc : isJsSpace c = true
    · rw [List.dropWhile_cons_of_pos hc, ih]
    · rw [List.dropWhile_cons_of_neg hc, List.dropWhile_cons_of_neg hc]

theorem jsTrim_idem (s : String) : jsTrim (jsTrim s) = jsTrim s := by
  unfold jsTrim
  simp only
  rw [dropWhile_trimEndChars _ (dropWhile_dropWhile_space s.data), trimEndChars_idem]

theorem toLower_cases (c : Char) :
    (c.toLower = c ∧ ¬ (65 ≤ c.toNat ∧ c.toNat ≤ 90))
      ∨ (isJsSpace c = false ∧ isJsSpace c.toLower = false ∧ c.toLower.toLower = c.toLower) := by
  by_cases h : 65 ≤ c.toNat ∧ c.toNat ≤ 90
  · right
    obtain ⟨h1, h2⟩ := h
    have hc : c = Char.ofNat c.toNat := (Char.ofNat_toNat c).symm
    generalize c.toNat = n at hc h1 h2
    subst hc
    interval_cases n <;> decide
  · left
    refine ⟨?_, h⟩
    unfold Char.toLower
    simp only [ge_iff_le]
    rw [if_neg h]

theorem isJsSpace_toLower (c : Char) : isJsSpace c.toLower = isJsSpace c := by
  rcases toLower_cases c with ⟨h, _⟩ | ⟨h1, h2, _⟩
  · rw [h]
  · rw [h1, h2]

theorem toLower_toLower (c : Char) : c.toLower.toLower = c.toLower := by
  rcases toLower_cases c with ⟨h, _⟩ | ⟨_, _, h3⟩
  · rw [h, h]
  · exact h3

theorem dropWhile_map_toLower (l : List Char) :
    (l.map Char.toLower).dropWhile isJsSpace = (l.dropWhile isJsSpace).map Char.toLower := by
  induction l with
  | nil => rfl
  | cons c cs ih =>
    by_cases hc : isJsSpace c = true
    · have hc2 : isJsSpace c.toLower = true := by rw [isJsSpace_toLower]; exact hc
      rw [List.map_cons, List.dropWhile_cons_of_pos hc2, List.dropWhile_cons_of_pos hc, ih]
    · have hc2 : ¬ isJsSpace c.toLower = true := by rw [isJsSpace_toLower]; exact hc
      rw [List.map_cons, List.dropWhile_cons_of_neg hc2, List.dropWhile_cons_of_neg hc,
        List.map_cons]

theorem trimEndChars_map_toLower (l : List Char) :
    trimEndChars (l.map Char.toLower) = (trimEndChars l).map Char.toLower := by
  induction l with
  | nil => rfl
  | cons c cs ih =>
    by_cases hn : trimEndChars cs = []
    · have hn2 : trimEndChars (cs.map Char.toLower) = [] := by rw [ih, hn]; rfl
      rw [List.map_cons, trimEndChars_cons_of_nil _ _ hn2, trimEndChars_cons_of_nil _ _ hn,
        isJsSpace_toLower]
      by_cases hc : isJsSpace c = true <;> simp [hc]
    · have hn2 : trimEndChars (cs.map Char.toLower) ≠ [] := by
        rw [ih]
        intro h
        exact hn (List.map_eq_nil_iff.mp h)
      rw [List.map_cons, trimEndChars_cons_of_ne _ _ hn2, trimEndChars_cons_of_ne _ _ hn, ih,
        List.map_cons]

theorem demoLib_normalize_idem (s : String) :
    demoLib.toLowerCase (jsTrim (demoLib.toLowerCase (jsTrim s)))
      = demoLib.toLowerCase (jsTrim s) := by
  have hmm : ∀ l : List Char, (l.map Char.toLower).map Char.toLower = l.map Char.toLower := by
    intro l
    rw [List.map_map]
    apply List.map_congr_left
    intro c _
    exact toLower_toLower c
  have ht := congrArg String.data (jsTrim_idem s)
  simp only [jsTrim] at ht
  simp only [demoLib, jsTrim]
  rw [dropWhile_map_toLower, trimEndChars_map_toLower, ht, hmm]

/-! ## The collection under signups and toggles -/

theorem create_fresh (L : Lib) (now : Nat) (oid : ObjectId) (db : Db) (f : NewUser) (user : User)
    (db1 : Db) (h : User.create L now oid db f = .ok (user, db1)) :
    ∀ u ∈ db, u.email ≠ user.email := by
  have hu := (create_ok L now oid db f user db1 h).1
  unfold User.create at h
  simp only at h
  split at h
  · cases h
  · split at h
    · cases h
    · rename_i _ hany
      intro u hmem heq
      apply hany
      rw [List.any_eq_true]
      refine ⟨u, hmem, ?_⟩
      simp [heq, hu]

theorem signup_db_cases (L : Lib) (env : ProcessEnv) (cx : Ctx) (db : Db) (body : JsObj) :
    (signup L env cx db body).db = db
      ∨ ((signup L env cx db body).db = db ++ [signupDoc L cx body]
          ∧ ∀ u ∈ db, u.email ≠ (signupDoc L cx body).email) := by
  unfold signup
  simp only
  split
  · exact Or.inl rfl
  · split
    · exact Or.inl rfl
    · split
      · exact Or.inl rfl
      · split
        · exact Or.inl rfl
        · rename_i user db1 hc
          obtain ⟨hu, hd⟩ := create_ok _ _ _ _ _ _ _ hc
          have hfresh := create_fresh _ _ _ _ _ _ _ hc
          have hu2 : user = signupDoc L cx body := by rw [hu]; rfl
          subst hu2
          right
          split <;> exact ⟨hd, hfresh⟩

theorem saveModified_emails (now : Nat) (id : ObjectId) (f : User → User)
    (hf : ∀ u, (f u).email = u.email) (db : Db) :
    (saveModified now id f db).map (fun u => u.email) = db.map (fun u => u.email) := by
  induction db with
  | nil => rfl
  | cons u us ih =>
    unfold saveModified
    split
    · simp [hf]
    · simp [ih]

theorem toggleFavorite_emails (now : Nat) (db : Db) (req : Req) :
    (toggleFavorite now db req).db.map (fun u => u.email) = db.map (fun u => u.email) := by
  unfold toggleFavorite
  simp only
  split
  · rfl
  · split
    · rfl
    · split
      · rfl
      · simp only
        apply saveModified_emails
        intro u
        rfl

theorem toggleSavedList_emails (now : Nat) (db : Db) (req : Req) :
    (toggleSavedList now db req).db.map (fun u => u.email) = db.map (fun u => u.email) := by
  unfold toggleSavedList
  simp only
  split
  · rfl
  · split
    · rfl
    · split
      · rfl
      · simp only
        apply saveModified_emails
        intro u
        rfl

theorem serve_emails (L : Lib)
    (hidem : ∀ s, L.toLowerCase (jsTrim (L.toLowerCase (jsTrim s))) = L.toLowerCase (jsTrim s))
    (db : Db) (r : Request)
    (hinv : (∀ e ∈ db.map (fun u => u.email), L.toLowerCase (jsTrim e) = e)
      ∧ (db.map (fun u => u.email)).Nodup) :
    (∀ e ∈ (r.serve L db).map (fun u => u.email), L.toLowerCase (jsTrim e) = e)
      ∧ ((r.serve L db).map (fun u => u.email)).Nodup := by
  cases r with
  | signup env cx body =>
    simp only [Request.serve]
    rcases signup_db_cases L env cx db body with h | ⟨h, hfresh⟩
    · rw [h]
      exact hinv
    · rw [h]
      constructor
      · intro e he
        simp only [List.map_append, List.map_cons, List.map_nil, List.mem_append,
          List.mem_singleton] at he
        rcases he with he | he
        · exact hinv.1 e he
        · rw [he]
          simp only [signupDoc, emailSetter, normalizeEmail]
          rw [hidem, hidem]
      · simp only [List.map_append, List.map_cons, List.map_nil]
        rw [List.nodup_append]
        refine ⟨hinv.2, List.nodup_singleton _, ?_⟩
        intro e he1 he2
        simp only [List.mem_singleton] at he2
        rw [List.mem_map] at he1
        obtain ⟨u, hu, hue⟩ := he1
        exact hfresh u hu (hue.trans he2)
  | toggleFavorite now req =>
    simp only [Request.serve]
    rw [toggleFavorite_emails]
    exact hinv
  | toggleSavedList now req =>
    simp only [Request.serve]
    rw [toggleSavedList_emails]
    exact hinv

theorem serveAll_emails (L : Lib)
    (hidem : ∀ s, L.toLowerCase (jsTrim (L.toLowerCase (jsTrim s))) = L.toLowerCase (jsTrim s))
    (rs : List Request) (db : Db)
    (hinv : (∀ e ∈ db.map (fun u => u.email), L.toLowerCase (jsTrim e) = e)
      ∧ (db.map (fun u => u.email)).Nodup) :
    (∀ e ∈ (serveAll L db rs).map (fun u => u.email), L.toLowerCase (jsTrim e) = e)
      ∧ ((serveAll L db rs).map (fun u => u.email)).Nodup := by
  induction rs generalizing db with
  | nil => exact hinv
  | cons r rs ih =>
    simp only [serveAll, List.foldl_cons]
    exact ih (r.serve L db) (serve_emails L hidem db r hinv)

/-- C18: when normalizing an email twice (trim, lower-case) gives what
normalizing it once gives, then in the collection reached from the empty one
by any sequence of requests served one after another (signups, and toggles
between them) every record's email equals its own trimmed lower-cased form
and no two records have the same email. -/
theorem emails_stay_normalized_and_unique (L : Lib)
    (hidem : ∀ s, L.toLowerCase (jsTrim (L.toLowerCase (jsTrim s))) = L.toLowerCase (jsTrim s))
    (rs : List Request) :
    (∀ u ∈ serveAll L [] rs, L.toLowerCase (jsTrim u.email) = u.email)
      ∧ (serveAll L [] rs).Pairwise (fun a b => a.email ≠ b.email) := by
  obtain ⟨h1, h2⟩ := serveAll_emails L hidem rs [] ⟨by simp, by simp⟩
  constructor
  · intro u hu
    exact h1 u.email (List.mem_map_of_mem _ hu)
  · have h3 : List.Pairwise (fun a b : String => a ≠ b)
        ((serveAll L [] rs).map (fun u => u.email)) := h2
    rw [List.pairwise_map] at h3
    exact h3

/-- C18 at a concrete sequence: two signups with variants of one email and a
third with another email. -/
theorem emails_stay_normalized_and_unique_witness :
    (∀ u ∈ serveAll demoLib []
        [.signup demoEnv ⟨1000, "salt", 7⟩
          [("username", .str "bayla"), ("email", .str "Bay@Ex.com "),
           ("password", .str "secret1")],
         .signup demoEnv ⟨2000, "pepper", 8⟩
          [("username", .str "other"), ("email", .str " BAY@ex.COM"),
           ("password", .str "hunter22")],
         .signup demoEnv ⟨3000, "thyme", 9⟩
          [("username", .str "third"), ("email", .str "Third@Ex.com"),
           ("password", .str "hunter33")]],
        demoLib.toLowerCase (jsTrim u.email) = u.email)
      ∧ (serveAll demoLib []
        [.signup demoEnv ⟨1000, "salt", 7⟩
          [("username", .str "bayla"), ("email", .str "Bay@Ex.com "),
           ("password", .str "secret1")],
         .signup demoEnv ⟨2000, "pepper", 8⟩
          [("username", .str "other"), ("email", .str " BAY@ex.COM"),
           ("password", .str "hunter22")],
         .signup demoEnv ⟨3000, "thyme", 9⟩
          [("username", .str "third"), ("email", .str "Third@Ex.com"),
           ("password", .str "hunter33")]]).Pairwise (fun a b => a.email ≠ b.email) :=
  emails_stay_normalized_and_unique demoLib demoLib_normalize_idem _

/-! ## Toggling favorites and the saved list -/

theorem mem_setAdd (s : List String) (x y : String) : y ∈ setAdd s x ↔ y ∈ s ∨ y = x := by
  unfold setAdd
  split
  · rename_i h
    constructor
    · exact Or.inl
    · rintro (h1 | h1)
      · exact h1
      · rw [h1]
        exact h
  · simp

theorem nodup_setAdd (s : List String) (x : String) (h : s.Nodup) : (setAdd s x).Nodup := by
  unfold setAdd
  split
  · exact h
  · rename_i hx
    rw [List.nodup_append]
    refine ⟨h, List.nodup_singleton _, ?_⟩
    intro a ha hax
    simp only [List.mem_singleton] at hax
    exact hx (hax ▸ ha)

theorem mem_foldl_setAdd (xs acc : List String) (y : String) :
    y ∈ xs.foldl setAdd acc ↔ y ∈ acc ∨ y ∈ xs := by
  induction xs generalizing acc with
  | nil => simp
  | cons x xs ih =>
    rw [List.foldl_cons, ih, mem_setAdd, List.mem_cons]
    constructor
    · rintro ((h | h) | h)
      · exact Or.inl h
      · exact Or.inr (Or.inl h)
      · exact Or.inr (Or.inr h)
    · rintro (h | h | h)
      · exact Or.inl (Or.inl h)
      · exact Or.inl (Or.inr h)
      · exact Or.inr h

theorem nodup_foldl_setAdd (xs acc : List String) (h : acc.Nodup) :
    (xs.foldl setAdd acc).Nodup := by
  induction xs generalizing acc with
  | nil => exact h
  | cons x xs ih =>
    rw [List.foldl_cons]
    exact ih _ (nodup_setAdd acc x h)

theorem mem_newSet (xs : List String) (y : String) : y ∈ newSet xs ↔ y ∈ xs := by
  unfold newSet
  rw [mem_foldl_setAdd]
  simp

theorem nodup_newSet (xs : List String) : (newSet xs).Nodup :=
  nodup_foldl_setAdd xs [] List.nodup_nil

theorem mem_setDelete (s : List String) (x y : String) : y ∈ setDelete s x ↔ y ∈ s ∧ y ≠ x := by
  unfold setDelete
  simp [List.mem_filter]

theorem nodup_toggleIn (list : List String) (mealId : String) :
    (toggleIn list mealId).2.Nodup := by
  unfold toggleIn
  simp only
  split
  · exact (nodup_newSet list).filter _
  · exact nodup_setAdd _ _ (nodup_newSet list)

theorem mem_toggleIn (list : List String) (mealId y : String) :
    y ∈ (toggleIn list mealId).2
      ↔ (if mealId ∈ list then y ∈ list ∧ y ≠ mealId else y ∈ list ∨ y = mealId) := by
  unfold toggleIn
  simp only
  by_cases h : mealId ∈ list
  · have h2 : mealId ∈ newSet list := (mem_newSet list mealId).mpr h
    simp only [h2, h, if_true, mem_setDelete, mem_newSet]
  · have h2 : ¬ mealId ∈ newSet list := fun h3 => h ((mem_newSet list mealId).mp h3)
    simp only [h2, h, if_false, mem_setAdd, mem_newSet]

theorem mem_toggleIn_twice (list : List String) (mealId y : String) :
    y ∈ (toggleIn (toggleIn list mealId).2 mealId).2 ↔ y ∈ list := by
  have hm : mealId ∈ (toggleIn list mealId).2 ↔ ¬ mealId ∈ list := by
    rw [mem_toggleIn]
    by_cases h : mealId ∈ list <;> simp [h]
  rw [mem_toggleIn (toggleIn list mealId).2 mealId y]
  by_cases h : mealId ∈ list
  · have hn : ¬ mealId ∈ (toggleIn list mealId).2 := fun h2 => (hm.mp h2) h
    rw [if_neg hn, mem_toggleIn, if_pos h]
    by_cases hy : y = mealId
    · subst hy
      simp [h]
    · simp [hy]
  · have hp : mealId ∈ (toggleIn list mealId).2 := hm.mpr h
    rw [if_pos hp, mem_toggleIn, if_neg h]
    by_cases hy : y = mealId
    · subst hy
      simp [h]
    · simp [hy]

theorem findById_id (db : Db) (id : ObjectId) (u : User) (h : User.findById db id = some u) :
    u._id = id := by
  unfold User.findById at h
  have := List.find?_some h
  simpa using this

theorem findById_saveModified (now : Nat) (id : ObjectId) (f : User → User)
    (hf : ∀ u, (f u)._id = u._id) (db : Db) (u : User) (h : User.findById db id = some u) :
    User.findById (saveModified now id f db) id = some { f u with updatedAt := now } := by
  induction db with
  | nil => simp [User.findById] at h
  | cons v vs ih =>
    unfold saveModified
    unfold User.findById at h ih ⊢
    by_cases hv : (v._id == id) = true
    · rw [List.find?_cons, hv] at h
      simp only [Option.some.injEq] at h
      subst h
      rw [if_pos hv, List.find?_cons]
      have hv2 : ((f v)._id == id) = true := by rw [hf]; exact hv
      simp only [hv2]
    · have hv3 : (v._id == id) = false := by simpa using hv
      rw [List.find?_cons, hv3] at h
      rw [if_neg hv, List.find?_cons, hv3]
      exact ih h

theorem toggleFavorite_ok (now : Nat) (db : Db) (req : Req) (c : Claims) (u : User)
    (huser : req.user = some c) (hfind : User.findById db c.userId = some u)
    (hmeal : jsTrim (strOrEmpty (req.body.get "mealId")) ≠ "") :
    (toggleFavorite now db req).status = some 200
      ∧ User.findById (toggleFavorite now db req).db c.userId
        = some { u with
            favorites := (toggleIn u.favorites (jsTrim (strOrEmpty (req.body.get "mealId")))).2,
            updatedAt := now } := by
  have hid := findById_id db c.userId u hfind
  have hm : (jsTrim (strOrEmpty (req.body.get "mealId")) == "") = false := by simpa using hmeal
  have hsave : User.findById
      (saveModified now u._id
        (fun w => { w with
          favorites := (toggleIn u.favorites (jsTrim (strOrEmpty (req.body.get "mealId")))).2 }) db)
      c.userId
      = some { u with
          favorites := (toggleIn u.favorites (jsTrim (strOrEmpty (req.body.get "mealId")))).2,
          updatedAt := now } := by
    conv_lhs => rw [hid]
    exact findById_saveModified now c.userId
      (fun w => { w with
        favorites := (toggleIn u.favorites (jsTrim (strOrEmpty (req.body.get "mealId")))).2 })
      (fun _ => rfl) db u hfind
  unfold toggleFavorite
  simp only [huser, hfind, hm, Bool.false_eq_true, if_false]
  exact ⟨rfl, hsave⟩

theorem toggleSavedList_ok (now : Nat) (db : Db) (req : Req) (c : Claims) (u : User)
    (huser : req.user = some c) (hfind : User.findById db c.userId = some u)
    (hmeal : jsTrim (strOrEmpty (req.body.get "mealId")) ≠ "") :
    (toggleSavedList now db req).status = some 200
      ∧ User.findById (toggleSavedList now db req).db c.userId
        = some { u with
            savedList := (toggleIn u.savedList (jsTrim (strOrEmpty (req.body.get "mealId")))).2,
            updatedAt := now } := by
  have hid := findById_id db c.userId u hfind
  have hm : (jsTrim (strOrEmpty (req.body.get "mealId")) == "") = false := by simpa using hmeal
  have hsave : User.findById
      (saveModified now u._id
        (fun w => { w with
          savedList := (toggleIn u.savedList (jsTrim (strOrEmpty (req.body.get "mealId")))).2 }) db)
      c.userId
      = some { u with
          savedList := (toggleIn u.savedList (jsTrim (strOrEmpty (req.body.get "mealId")))).2,
          updatedAt := now } := by
    conv_lhs => rw [hid]
    exact findById_saveModified now c.userId
      (fun w => { w with
        savedList := (toggleIn u.savedList (jsTrim (strOrEmpty (req.body.get "mealId")))).2 })
      (fun _ => rfl) db u hfind
  unfold toggleSavedList
  simp only [huser, hfind, hm, Bool.false_eq_true, if_false]
  exact ⟨rfl, hsave⟩

/-- C19: for a request of a user whose record is in the collection, with a
meal id that is not empty after trimming, two `toggleFavorite` calls in a row
are both answered 200 and leave a record whose `favorites` has exactly the
members it had before: every id is in the list after the two calls if and
only if it was in it before.  The same holds for `toggleSavedList` and
`savedList`. -/
theorem toggle_twice_keeps_membership (now1 now2 : Nat) (db : Db) (req : Req) (c : Claims)
    (u : User) (huser : req.user = some c) (hfind : User.findById db c.userId = some u)
    (hmeal : jsTrim (strOrEmpty (req.body.get "mealId")) ≠ "") :
    ((toggleFavorite now1 db req).status = some 200
        ∧ (toggleFavorite now2 (toggleFavorite now1 db req).db req).status = some 200
        ∧ ∃ u2, User.findById (toggleFavorite now2 (toggleFavorite now1 db req).db req).db
              c.userId = some u2
            ∧ ∀ id, id ∈ u2.favorites ↔ id ∈ u.favorites)
      ∧ ((toggleSavedList now1 db req).status = some 200
        ∧ (toggleSavedList now2 (toggleSavedList now1 db req).db req).status = some 200
        ∧ ∃ u2, User.findById (toggleSavedList now2 (toggleSavedList now1 db req).db req).db
              c.userId = some u2
            ∧ ∀ id, id ∈ u2.savedList ↔ id ∈ u.savedList) := by
  constructor
  · obtain ⟨hs1, hf1⟩ := toggleFavorite_ok now1 db req c u huser hfind hmeal
    obtain ⟨hs2, hf2⟩ := toggleFavorite_ok now2 _ req c _ huser hf1 hmeal
    refine ⟨hs1, hs2, _, hf2, ?_⟩
    intro id
    exact mem_toggleIn_twice u.favorites _ id
  · obtain ⟨hs1, hf1⟩ := toggleSavedList_ok now1 db req c u huser hfind hmeal
    obtain ⟨hs2, hf2⟩ := toggleSavedList_ok now2 _ req c _ huser hf1 hmeal
    refine ⟨hs1, hs2, _, hf2, ?_⟩
    intro id
    exact mem_toggleIn_twice u.savedList _ id

/-- C19 at a concrete record: "bayla" toggles meal "52772" twice. -/
theorem toggle_twice_keeps_membership_witness :
    ∃ u2, User.findById
          (toggleFavorite 2001
            (toggleFavorite 2000 [demoUser]
              ⟨none, [("mealId", .str " 52772 ")], some ⟨7, "user", 1000, 605800⟩⟩).db
            ⟨none, [("mealId", .str " 52772 ")], some ⟨7, "user", 1000, 605800⟩⟩).db 7 = some u2
        ∧ ∀ id, id ∈ u2.favorites ↔ id ∈ demoUser.favorites :=
  (toggle_twice_keeps_membership 2000 2001 [demoUser]
    ⟨none, [("mealId", .str " 52772 ")], some ⟨7, "user", 1000, 605800⟩⟩
    ⟨7, "user", 1000, 605800⟩ demoUser rfl (by decide) (by decide)).1.2.2

theorem mem_saveModified (now : Nat) (id : ObjectId) (f : User → User) (db : Db) (w : User)
    (h : w ∈ saveModified now id f db) :
    w ∈ db ∨ ∃ v ∈ db, w = { f v with updatedAt := now } := by
  induction db with
  | nil => simp [saveModified] at h
  | cons v vs ih =>
    unfold saveModified at h
    split at h
    · rw [List.mem_cons] at h
      rcases h with h | h
      · exact Or.inr ⟨v, List.mem_cons_self _ _, h⟩
      · exact Or.inl (List.mem_cons_of_mem _ h)
    · rw [List.mem_cons] at h
      rcases h with h | h
      · exact Or.inl (h ▸ List.mem_cons_self _ _)
      · rcases ih h with h2 | ⟨x, hx, hw⟩
        · exact Or.inl (List.mem_cons_of_mem _ h2)
        · exact Or.inr ⟨x, List.mem_cons_of_mem _ hx, hw⟩

theorem toggleFavorite_200 (now : Nat) (db : Db) (req : Req)
    (h : (toggleFavorite now db req).status = some 200) :
    ∃ c u, req.user = some c ∧ User.findById db c.userId = some u
      ∧ jsTrim (strOrEmpty (req.body.get "mealId")) ≠ "" := by
  unfold toggleFavorite at h
  simp only at h
  split at h
  · simp [UserRun.status, reply] at h
  · rename_i c hc
    split at h
    · simp [UserRun.status, reply] at h
    · rename_i hm
      split at h
      · simp [UserRun.status, reply] at h
      · rename_i u hu
        exact ⟨c, u, hc, hu, by simpa using hm⟩

theorem toggleSavedList_200 (now : Nat) (db : Db) (req : Req)
    (h : (toggleSavedList now db req).status = some 200) :
    ∃ c u, req.user = some c ∧ User.findById db c.userId = some u
      ∧ jsTrim (strOrEmpty (req.body.get "mealId")) ≠ "" := by
  unfold toggleSavedList at h
  simp only at h
  split at h
  · simp [UserRun.status, reply] at h
  · rename_i c hc
    split at h
    · simp [UserRun.status, reply] at h
    · rename_i hm
      split at h
      · simp [UserRun.status, reply] at h
      · rename_i u hu
        exact ⟨c, u, hc, hu, by simpa using hm⟩

theorem toggleFavorite_nodup (now : Nat) (db : Db) (req : Req)
    (hinv : ∀ u ∈ db, u.favorites.Nodup ∧ u.savedList.Nodup) :
    ∀ u ∈ (toggleFavorite now db req).db, u.favorites.Nodup ∧ u.savedList.Nodup := by
  unfold toggleFavorite
  simp only
  split
  · exact hinv
  · split
    · exact hinv
    · split
      · exact hinv
      · intro w hw
        rcases mem_saveModified _ _ _ _ _ hw with h | ⟨v, hv, hwv⟩
        · exact hinv w h
        · rw [hwv]
          exact ⟨nodup_toggleIn _ _, (hinv v hv).2⟩

theorem toggleSavedList_nodup (now : Nat) (db : Db) (req : Req)
    (hinv : ∀ u ∈ db, u.favorites.Nodup ∧ u.savedList.Nodup) :
    ∀ u ∈ (toggleSavedList now db req).db, u.favorites.Nodup ∧ u.savedList.Nodup := by
  unfold toggleSavedList
  simp only
  split
  · exact hinv
  · split
    · exact hinv
    · split
      · exact hinv
      · intro w hw
        rcases mem_saveModified _ _ _ _ _ hw with h | ⟨v, hv, hwv⟩
        · exact hinv w h
        · rw [hwv]
          exact ⟨(hinv v hv).1, nodup_toggleIn _ _⟩

theorem serveAll_nodup (L : Lib) (rs : List Request) (db : Db)
    (hinv : ∀ u ∈ db, u.favorites.Nodup ∧ u.savedList.Nodup) :
    ∀ u ∈ serveAll L db rs, u.favorites.Nodup ∧ u.savedList.Nodup := by
  induction rs generalizing db with
  | nil => exact hinv
  | cons r rs ih =>
    simp only [serveAll, List.foldl_cons]
    apply ih
    cases r with
    | signup env cx body =>
      simp only [Request.serve]
      rcases signup_db_cases L env cx db body with h | ⟨h, _⟩
      · rw [h]
        exact hinv
      · rw [h]
        intro u hu
        rw [List.mem_append, List.mem_singleton] at hu
        rcases hu with hu | hu
        · exact hinv u hu
        · rw [hu]
          exact ⟨List.nodup_nil, List.nodup_nil⟩
    | toggleFavorite now req => exact toggleFavorite_nodup now db req hinv
    | toggleSavedList now req => exact toggleSavedList_nodup now db req hinv

/-- C20: a `toggleFavorite` answered 200 leaves the user's record with a
`favorites` list without duplicates, whatever the list held before, and a
`toggleSavedList` answered 200 does the same for `savedList`; and in the
collection reached from the empty one by any sequence of signups and toggles
every record's `favorites` and `savedList` are without duplicates. -/
theorem toggled_lists_have_no_duplicates (L : Lib) (now : Nat) (db : Db) (req : Req)
    (rs : List Request) :
    ((toggleFavorite now db req).status = some 200 →
        ∃ c u2, req.user = some c
          ∧ User.findById (toggleFavorite now db req).db c.userId = some u2
          ∧ u2.favorites.Nodup)
      ∧ ((toggleSavedList now db req).status = some 200 →
        ∃ c u2, req.user = some c
          ∧ User.findById (toggleSavedList now db req).db c.userId = some u2
          ∧ u2.savedList.Nodup)
      ∧ ∀ u ∈ serveAll L [] rs, u.favorites.Nodup ∧ u.savedList.Nodup := by
  refine ⟨?_, ?_, ?_⟩
  · intro h
    obtain ⟨c, u, hc, hu, hm⟩ := toggleFavorite_200 now db req h
    exact ⟨c, _, hc, (toggleFavorite_ok now db req c u hc hu hm).2, nodup_toggleIn _ _⟩
  · intro h
    obtain ⟨c, u, hc, hu, hm⟩ := toggleSavedList_200 now db req h
    exact ⟨c, _, hc, (toggleSavedList_ok now db req c u hc hu hm).2, nodup_toggleIn _ _⟩
  · exact serveAll_nodup L rs [] (by simp)

/-- C20 at a concrete record whose `favorites` holds a meal twice: after one
toggle of another meal the stored list has no duplicates. -/
theorem toggled_lists_have_no_duplicates_witness :
    ∃ c u2, (⟨none, [("mealId", .str "53000")], some ⟨7, "user", 1000, 605800⟩⟩ : Req).user
          = some c
      ∧ User.findById
          (toggleFavorite 2000 [demoUserWithDuplicates]
            ⟨none, [("mealId", .str "53000")], some ⟨7, "user", 1000, 605800⟩⟩).db c.userId
          = some u2
      ∧ u2.favorites.Nodup :=
  (toggled_lists_have_no_duplicates demoLib 2000 [demoUserWithDuplicates]
    ⟨none, [("mealId", .str "53000")], some ⟨7, "user", 1000, 605800⟩⟩ []).1 (by decide)

/-! ## What a toggle touches -/

theorem saveModified_split (now : Nat) (id : ObjectId) (f : User → User) (db : Db) (u : User)
    (h : User.findById db id = some u) :
    ∃ pre post, db = pre ++ u :: post
      ∧ saveModified now id f db = pre ++ { f u with updatedAt := now } :: post := by
  induction db with
  | nil => simp [User.findById] at h
  | cons v vs ih =>
    unfold User.findById at h ih
    unfold saveModified
    by_cases hv : (v._id == id) = true
    · rw [List.find?_cons, hv] at h
      simp only [Option.some.injEq] at h
      subst h
      rw [if_pos hv]
      exact ⟨[], vs, rfl, rfl⟩
    · have hv3 : (v._id == id) = false := by simpa using hv
      rw [List.find?_cons, hv3] at h
      rw [if_neg hv]
      obtain ⟨pre, post, h1, h2⟩ := ih h
      refine ⟨v :: pre, post, ?_, ?_⟩
      · rw [h1]
        rfl
      · rw [h2]
        rfl

/-- C21, as the code has it: `toggleFavorite` either leaves the collection as
it was (any answer but 200) or replaces exactly one record, the one
`findById` returns for the user of the request, by a record with the same
`_id`, `username`, `email`, `passwordHash`, `role`, `savedList` and
`createdAt`; every record before and after it in the collection stays as it
was.  Besides `favorites` only the `updatedAt` stamp that the schema keeps is
written.  `toggleSavedList` does the same with `savedList` and `favorites`
exchanged. -/
theorem toggle_changes_only_its_list (now : Nat) (db : Db) (req : Req) :
    ((toggleFavorite now db req).db = db
        ∨ ∃ c u u2 pre post, req.user = some c ∧ User.findById db c.userId = some u
            ∧ db = pre ++ u :: post
            ∧ (toggleFavorite now db req).db = pre ++ u2 :: post
            ∧ u2._id = u._id ∧ u2.username = u.username ∧ u2.email = u.email
            ∧ u2.passwordHash = u.passwordHash ∧ u2.role = u.role
            ∧ u2.savedList = u.savedList ∧ u2.createdAt = u.createdAt)
      ∧ ((toggleSavedList now db req).db = db
        ∨ ∃ c u u2 pre post, req.user = some c ∧ User.findById db c.userId = some u
            ∧ db = pre ++ u :: post
            ∧ (toggleSavedList now db req).db = pre ++ u2 :: post
            ∧ u2._id = u._id ∧ u2.username = u.username ∧ u2.email = u.email
            ∧ u2.passwordHash = u.passwordHash ∧ u2.role = u.role
            ∧ u2.favorites = u.favorites ∧ u2.createdAt = u.createdAt) := by
  constructor
  · unfold toggleFavorite
    simp only
    split
    · exact Or.inl rfl
    · rename_i c hc
      split
      · exact Or.inl rfl
      · split
        · exact Or.inl rfl
        · rename_i u hu
          right
          have hid := findById_id db c.userId u hu
          obtain ⟨pre, post, h1, h2⟩ := saveModified_split now c.userId
            (fun w => { w with
              favorites := (toggleIn u.favorites (jsTrim (strOrEmpty (req.body.get "mealId")))).2 })
            db u hu
          refine ⟨c, u,
            { u with
              favorites := (toggleIn u.favorites (jsTrim (strOrEmpty (req.body.get "mealId")))).2,
              updatedAt := now },
            pre, post, hc, hu, h1, ?_, rfl, rfl, rfl, rfl, rfl, rfl, rfl⟩
          simp only
          conv_lhs => rw [hid]
          exact h2
  · unfold toggleSavedList
    simp only
    split
    · exact Or.inl rfl
    · rename_i c hc
      split
      · exact Or.inl rfl
      · split
        · exact Or.inl rfl
        · rename_i u hu
          right
          have hid := findById_id db c.userId u hu
          obtain ⟨pre, post, h1, h2⟩ := saveModified_split now c.userId
            (fun w => { w with
              savedList := (toggleIn u.savedList (jsTrim (strOrEmpty (req.body.get "mealId")))).2 })
            db u hu
          refine ⟨c, u,
            { u with
              savedList := (toggleIn u.savedList (jsTrim (strOrEmpty (req.body.get "mealId")))).2,
              updatedAt := now },
            pre, post, hc, hu, h1, ?_, rfl, rfl, rfl, rfl, rfl, rfl, rfl⟩
          simp only
          conv_lhs => rw [hid]
          exact h2

/-- C21 as stated fails: a `toggleFavorite` at time 2000 on the record of
"bayla", stored at time 1000, writes `favorites` and also `updatedAt`, which
the schema's `timestamps` option keeps. -/
theorem toggleFavorite_also_writes_updatedAt :
    User.findById
        (toggleFavorite 2000 [demoUser]
          ⟨none, [("mealId", .str "52772")], some ⟨7, "user", 1000, 605800⟩⟩).db 7
        = some { demoUser with favorites := ["52772"], updatedAt := 2000 }
      ∧ demoUser.updatedAt = 1000
      ∧ ({ demoUser with favorites := ["52772"], updatedAt := 2000 } : User).updatedAt
          ≠ demoUser.updatedAt := by
  refine ⟨by decide, by decide, by decide⟩

theorem toggleIn_added (list : List String) (mealId : String) :
    (toggleIn list mealId).1 = true ↔ ¬ mealId ∈ list := by
  unfold toggleIn
  simp only
  by_cases h : mealId ∈ list
  · have h2 : mealId ∈ newSet list := (mem_newSet list mealId).mpr h
    simp [h2, h]
  · have h2 : ¬ mealId ∈ newSet list := fun h3 => h ((mem_newSet list mealId).mp h3)
    simp [h2, h]

/-- C22: for a request of a user whose record is in the collection, with a
meal id that is not empty after trimming, `toggleFavorite` answers 200 with
`{ ok: true, added, favorites }` where `added` is true exactly when the
trimmed meal id was not in the record's favorites; in the list of the answer
the meal id is a member exactly when it was not one before, every other id is
a member exactly when it was before, and the list is the one stored on the
record.  The same holds for `toggleSavedList` and `savedList`. -/
theorem toggle_flips_membership_and_reports_it (now : Nat) (db : Db) (req : Req) (c : Claims)
    (u : User) (huser : req.user = some c) (hfind : User.findById db c.userId = some u)
    (hmeal : jsTrim (strOrEmpty (req.body.get "mealId")) ≠ "") :
    (∃ added favs,
        (toggleFavorite now db req).outcome
          = .responded
              { status := 200,
                body := .obj [("ok", .bool true), ("added", .bool added),
                              ("favorites", .arr (favs.map Json.str))] }
        ∧ (added = true ↔ ¬ jsTrim (strOrEmpty (req.body.get "mealId")) ∈ u.favorites)
        ∧ (jsTrim (strOrEmpty (req.body.get "mealId")) ∈ favs
            ↔ ¬ jsTrim (strOrEmpty (req.body.get "mealId")) ∈ u.favorites)
        ∧ (∀ id, id ≠ jsTrim (strOrEmpty (req.body.get "mealId")) →
            (id ∈ favs ↔ id ∈ u.favorites))
        ∧ ∃ u2, User.findById (toggleFavorite now db req).db c.userId = some u2
            ∧ u2.favorites = favs)
      ∧ (∃ added list,
        (toggleSavedList now db req).outcome
          = .responded
              { status := 200,
                body := .obj [("ok", .bool true), ("added", .bool added),
                              ("savedList", .arr (list.map Json.str))] }
        ∧ (added = true ↔ ¬ jsTrim (strOrEmpty (req.body.get "mealId")) ∈ u.savedList)
        ∧ (jsTrim (strOrEmpty (req.body.get "mealId")) ∈ list
            ↔ ¬ jsTrim (strOrEmpty (req.body.get "mealId")) ∈ u.savedList)
        ∧ (∀ id, id ≠ jsTrim (strOrEmpty (req.body.get "mealId")) →
            (id ∈ list ↔ id ∈ u.savedList))
        ∧ ∃ u2, User.findById (toggleSavedList now db req).db c.userId = some u2
            ∧ u2.savedList = list) := by
  have hm : (jsTrim (strOrEmpty (req.body.get "mealId")) == "") = false := by simpa using hmeal
  have flip : ∀ l : List String,
      (jsTrim (strOrEmpty (req.body.get "mealId"))
          ∈ (toggleIn l (jsTrim (strOrEmpty (req.body.get "mealId")))).2
        ↔ ¬ jsTrim (strOrEmpty (req.body.get "mealId")) ∈ l)
      ∧ ∀ id, id ≠ jsTrim (strOrEmpty (req.body.get "mealId")) →
          (id ∈ (toggleIn l (jsTrim (strOrEmpty (req.body.get "mealId")))).2 ↔ id ∈ l) := by
    intro l
    constructor
    · rw [mem_toggleIn]
      by_cases h : jsTrim (strOrEmpty (req.body.get "mealId")) ∈ l <;> simp [h]
    · intro id hid
      rw [mem_toggleIn]
      by_cases h : jsTrim (strOrEmpty (req.body.get "mealId")) ∈ l <;> simp [h, hid]
  constructor
  · refine ⟨(toggleIn u.favorites (jsTrim (strOrEmpty (req.body.get "mealId")))).1,
      (toggleIn u.favorites (jsTrim (strOrEmpty (req.body.get "mealId")))).2, ?_,
      toggleIn_added _ _, (flip u.favorites).1, (flip u.favorites).2,
      _, (toggleFavorite_ok now db req c u huser hfind hmeal).2, rfl⟩
    unfold toggleFavorite
    simp only [huser, hfind, hm, Bool.false_eq_true, if_false]
  · refine ⟨(toggleIn u.savedList (jsTrim (strOrEmpty (req.body.get "mealId")))).1,
      (toggleIn u.savedList (jsTrim (strOrEmpty (req.body.get "mealId")))).2, ?_,
      toggleIn_added _ _, (flip u.savedList).1, (flip u.savedList).2,
      _, (toggleSavedList_ok now db req c u huser hfind hmeal).2, rfl⟩
    unfold toggleSavedList
    simp only [huser, hfind, hm, Bool.false_eq_true, if_false]

/-- C22 at a concrete record: "bayla", with no favorites yet, toggles meal
"52772". -/
theorem toggle_flips_membership_and_reports_it_witness :
    ∃ added favs,
      (toggleFavorite 2000 [demoUser]
          ⟨none, [("mealId", .str " 52772 ")], some ⟨7, "user", 1000, 605800⟩⟩).outcome
        = .responded
            { status := 200,
              body := .obj [("ok", .bool true), ("added", .bool added),
                            ("favorites", .arr (favs.map Json.str))] }
      ∧ (added = true ↔ ¬ jsTrim (strOrEmpty
          ((⟨none, [("mealId", .str " 52772 ")], some ⟨7, "user", 1000, 605800⟩⟩ : Req).body.get
            "mealId")) ∈ demoUser.favorites)
      ∧ (jsTrim (strOrEmpty
          ((⟨none, [("mealId", .str " 52772 ")], some ⟨7, "user", 1000, 605800⟩⟩ : Req).body.get
            "mealId")) ∈ favs
          ↔ ¬ jsTrim (strOrEmpty
          ((⟨none, [("mealId", .str " 52772 ")], some ⟨7, "user", 1000, 605800⟩⟩ : Req).body.get
            "mealId")) ∈ demoUser.favorites)
      ∧ (∀ id, id ≠ jsTrim (strOrEmpty
          ((⟨none, [("mealId", .str " 52772 ")], some ⟨7, "user", 1000, 605800⟩⟩ : Req).body.get
            "mealId")) →
          (id ∈ favs ↔ id ∈ demoUser.favorites))
      ∧ ∃ u2, User.findById
            (toggleFavorite 2000 [demoUser]
              ⟨none, [("mealId", .str " 52772 ")], some ⟨7, "user", 1000, 605800⟩⟩).db 7
            = some u2
          ∧ u2.favorites = favs :=
  (toggle_flips_membership_and_reports_it 2000 [demoUser]
    ⟨none, [("mealId", .str " 52772 ")], some ⟨7, "user", 1000, 605800⟩⟩
    ⟨7, "user", 1000, 605800⟩ demoUser rfl (by decide) (by decide)).1

/-! ## Pagination of the recipes page -/

theorem mem_consecutive (first : Int) (n : Nat) (x : Int) :
    x ∈ (List.range n).map (fun (i : Nat) => first + (i : Int)) ↔ first ≤ x ∧ x < first + n := by
  simp only [List.mem_map, List.mem_range]
  constructor
  · rintro ⟨i, hi, rfl⟩
    omega
  · rintro ⟨h1, h2⟩
    exact ⟨(x - first).toNat, by omega, by omega⟩

theorem pageButtons_eq (totalPages safePage : Int) (ht : 1 ≤ totalPages)
    (hs1 : 1 ≤ safePage) (hs2 : safePage ≤ totalPages) :
    ∃ first : Int,
      pageButtons totalPages safePage
          = (List.range (min totalPages 7).toNat).map (fun (i : Nat) => first + (i : Int))
        ∧ 1 ≤ first ∧ first + (min totalPages 7).toNat ≤ totalPages + 1
        ∧ first ≤ safePage ∧ safePage < first + (min totalPages 7).toNat := by
  unfold pageButtons arrayFrom
  simp only
  by_cases h7 : totalPages ≤ 7
  · rw [if_pos h7]
    have hmin : min totalPages 7 = totalPages := min_eq_left h7
    refine ⟨1, ?_, le_refl _, ?_, hs1, ?_⟩
    · rw [hmin]
      apply List.map_congr_left
      intro i _
      omega
    · rw [hmin]
      omega
    · rw [hmin]
      omega
  · rw [if_neg h7]
    have hmin : min totalPages 7 = 7 := min_eq_right (by omega)
    have h3 : (7 : Int) / 2 = 3 := by decide
    rw [hmin, h3]
    by_cases hlow : safePage - 3 < 1
    · have hnot : ¬ (7 : Int) > totalPages := by omega
      simp only [hlow, if_true, hnot, if_false]
      refine ⟨1, ?_, le_refl _, by omega, hs1, by omega⟩
      rfl
    · by_cases hhigh : safePage + 3 > totalPages
      · simp only [hlow, if_false, hhigh, if_true]
        refine ⟨totalPages - 7 + 1, ?_, by omega, by omega, by omega, by omega⟩
        have hlen : (totalPages - (totalPages - 7 + 1) + 1).toNat = (7 : Int).toNat := by
          congr 1
          omega
        rw [hlen]
      · simp only [hlow, if_false, hhigh]
        refine ⟨safePage - 3, ?_, by omega, by omega, by omega, by omega⟩
        have hlen : (safePage + 3 - (safePage - 3) + 1).toNat = (7 : Int).toNat := by
          congr 1
          omega
        rw [hlen]

/-- C23: for `totalPages >= 1` and `1 <= safePage <= totalPages`, the page
buttons are the integers `first`, `first + 1`, ... for some `first`, as many
as the smaller of `totalPages` and 7; each of them lies between 1 and
`totalPages`, and `safePage` is among them. -/
theorem pageButtons_window_around_page (totalPages safePage : Int) (ht : 1 ≤ totalPages)
    (hs1 : 1 ≤ safePage) (hs2 : safePage ≤ totalPages) :
    (∃ first : Int,
        pageButtons totalPages safePage
          = (List.range (min totalPages 7).toNat).map (fun (i : Nat) => first + (i : Int)))
      ∧ (pageButtons totalPages safePage).length = (min totalPages 7).toNat
      ∧ (∀ p ∈ pageButtons totalPages safePage, 1 ≤ p ∧ p ≤ totalPages)
      ∧ safePage ∈ pageButtons totalPages safePage := by
  obtain ⟨first, heq, h1, h2, h3, h4⟩ := pageButtons_eq totalPages safePage ht hs1 hs2
  refine ⟨⟨first, heq⟩, ?_, ?_, ?_⟩
  · rw [heq]
    simp
  · intro p hp
    rw [heq, mem_consecutive] at hp
    omega
  · rw [heq, mem_consecutive]
    exact ⟨h3, h4⟩

/-- C23 at concrete pages: page 19 of 20. -/
theorem pageButtons_window_around_page_witness :
    (pageButtons 20 19).length = (min (20 : Int) 7).toNat
      ∧ (∀ p ∈ pageButtons 20 19, 1 ≤ p ∧ p ≤ 20)
      ∧ (19 : Int) ∈ pageButtons 20 19 :=
  (pageButtons_window_around_page 20 19 (by decide) (by decide) (by decide)).2

/-! ## Removing duplicate meals -/

theorem lookup_mapSet (map : List (String × Meal)) (key k : String) (value : Meal) :
    List.lookup k (mapSet map key value)
      = if k = key then some value else List.lookup k map := by
  induction map with
  | nil =>
    by_cases h : k = key
    · simp [mapSet, List.lookup, h]
    · have hb : (k == key) = false := by simpa using h
      simp [mapSet, List.lookup, h, hb]
  | cons kv rest ih =>
    obtain ⟨k0, v0⟩ := kv
    unfold mapSet
    by_cases h0 : k0 = key
    · subst h0
      by_cases h : k = k0
      · simp [List.lookup, h]
      · have hb : (k == k0) = false := by simpa using h
        simp [List.lookup, h, hb]
    · have h0b : (k0 == key) = false := by simpa using h0
      simp only [h0b, Bool.false_eq_true, if_false]
      by_cases h : k = k0
      · subst h
        simp [List.lookup, h0]
      · have hb : (k == k0) = false := by simpa using h
        simp only [List.lookup, hb]
        exact ih

theorem keys_mapSet (map : List (String × Meal)) (key : String) (value : Meal) :
    (mapSet map key value).map (fun kv => kv.1)
      = if key ∈ map.map (fun kv => kv.1) then map.map (fun kv => kv.1)
        else map.map (fun kv => kv.1) ++ [key] := by
  induction map with
  | nil => simp [mapSet]
  | cons kv rest ih =>
    obtain ⟨k0, v0⟩ := kv
    unfold mapSet
    by_cases h0 : k0 = key
    · subst h0
      simp
    · have h0b : (k0 == key) = false := by simpa using h0
      have h0c : ¬ key = k0 := fun h => h0 h.symm
      simp only [h0b, Bool.false_eq_true, if_false, List.map_cons, ih, List.mem_cons, h0c,
        false_or]
      split <;> simp

theorem keys_foldl_mapSet (arr : List Meal) (acc : List (String × Meal))
    (hacc : (acc.map (fun kv => kv.1)).Nodup) :
    ((arr.foldl (fun map m => mapSet map m.idMeal m) acc).map (fun kv => kv.1)).Nodup
      ∧ ∀ k, k ∈ (arr.foldl (fun map m => mapSet map m.idMeal m) acc).map (fun kv => kv.1)
          ↔ k ∈ acc.map (fun kv => kv.1) ∨ k ∈ arr.map (fun m => m.idMeal) := by
  induction arr generalizing acc with
  | nil => simp [hacc]
  | cons a rest ih =>
    have hstep : ((mapSet acc a.idMeal a).map (fun kv => kv.1)).Nodup := by
      rw [keys_mapSet]
      split
      · exact hacc
      · rename_i hn
        rw [List.nodup_append]
        refine ⟨hacc, List.nodup_singleton _, ?_⟩
        intro x hx hx2
        simp only [List.mem_singleton] at hx2
        exact hn (hx2 ▸ hx)
    obtain ⟨h1, h2⟩ := ih (mapSet acc a.idMeal a) hstep
    rw [List.foldl_cons]
    refine ⟨h1, ?_⟩
    intro k
    rw [h2 k, keys_mapSet]
    by_cases hin : a.idMeal ∈ acc.map (fun kv => kv.1)
    · rw [if_pos hin]
      simp only [List.map_cons, List.mem_cons]
      constructor
      · rintro (h | h)
        · exact Or.inl h
        · exact Or.inr (Or.inr h)
      · rintro (h | h | h)
        · exact Or.inl h
        · exact Or.inl (h ▸ hin)
        · exact Or.inr h
    · rw [if_neg hin]
      simp only [List.map_cons, List.mem_cons, List.mem_append, List.not_mem_nil, or_false]
      constructor
      · rintro ((h | h) | h)
        · exact Or.inl h
        · exact Or.inr (Or.inl h)
        · exact Or.inr (Or.inr h)
      · rintro (h | h | h)
        · exact Or.inl (Or.inl h)
        · exact Or.inl (Or.inr h)
        · exact Or.inr h

theorem lookup_foldl_mapSet (arr : List Meal) (acc : List (String × Meal)) (k : String) :
    List.lookup k (arr.foldl (fun map m => mapSet map m.idMeal m) acc)
      = match arr.reverse.find? (fun x => x.idMeal == k) with
        | some m => some m
        | none => List.lookup k acc := by
  induction arr generalizing acc with
  | nil => simp
  | cons a rest ih =>
    rw [List.foldl_cons, ih, List.reverse_cons, List.find?_append]
    cases hfind : rest.reverse.find? (fun x => x.idMeal == k) with
    | some m => simp
    | none =>
      rw [lookup_mapSet]
      by_cases h : k = a.idMeal
      · simp [h]
      · have h2 : (a.idMeal == k) = false := by
          rw [beq_eq_false_iff_ne]
          exact fun h3 => h h3.symm
        simp [h, h2]

theorem lookup_of_mem (map : List (String × Meal)) (hnd : (map.map (fun kv => kv.1)).Nodup)
    (kv : String × Meal) (h : kv ∈ map) : List.lookup kv.1 map = some kv.2 := by
  induction map with
  | nil => simp at h
  | cons e rest ih =>
    obtain ⟨k0, v0⟩ := e
    rw [List.map_cons, List.nodup_cons] at hnd
    rw [List.mem_cons] at h
    rcases h with h | h
    · subst h
      simp [List.lookup]
    · have hne : ¬ kv.1 = k0 := by
        intro heq
        apply hnd.1
        rw [← heq]
        exact List.mem_map.mpr ⟨kv, h, rfl⟩
      have hb : (kv.1 == k0) = false := by simpa using hne
      simp only [List.lookup, hb]
      exact ih hnd.2 h

theorem dedupe_entry (arr : List Meal) (kv : String × Meal)
    (h : kv ∈ arr.foldl (fun map m => mapSet map m.idMeal m) []) :
    arr.reverse.find? (fun x => x.idMeal == kv.1) = some kv.2 ∧ kv.2.idMeal = kv.1 := by
  have hnd := (keys_foldl_mapSet arr [] (by simp)).1
  have hl := lookup_of_mem _ hnd kv h
  rw [lookup_foldl_mapSet] at hl
  cases hfind : arr.reverse.find? (fun x => x.idMeal == kv.1) with
  | none =>
    rw [hfind] at hl
    simp [List.lookup] at hl
  | some m =>
    rw [hfind] at hl
    simp only [Option.some.injEq] at hl
    subst hl
    refine ⟨rfl, ?_⟩
    have := List.find?_some hfind
    simpa using this

/-- C24: in the result of `dedupeById` no two entries have the same `idMeal`;
an `idMeal` occurs in the result if and only if it occurs in the input; and
each entry of the result is the last entry of the input with its `idMeal`. -/
theorem dedupeById_keeps_last_of_each_id (arr : List Meal) :
    ((dedupeById arr).map (fun m => m.idMeal)).Nodup
      ∧ (∀ id, id ∈ (dedupeById arr).map (fun m => m.idMeal)
          ↔ id ∈ arr.map (fun m => m.idMeal))
      ∧ ∀ m ∈ dedupeById arr,
          arr.reverse.find? (fun x => x.idMeal == m.idMeal) = some m := by
  have hids : (dedupeById arr).map (fun m => m.idMeal)
      = (arr.foldl (fun map m => mapSet map m.idMeal m) []).map (fun kv => kv.1) := by
    unfold dedupeById
    rw [List.map_map]
    apply List.map_congr_left
    intro kv hkv
    exact (dedupe_entry arr kv hkv).2
  obtain ⟨hnd, hmem⟩ := keys_foldl_mapSet arr [] (by simp)
  refine ⟨?_, ?_, ?_⟩
  · rw [hids]
    exact hnd
  · intro id
    rw [hids, hmem id]
    simp
  · intro m hm
    unfold dedupeById at hm
    rw [List.mem_map] at hm
    obtain ⟨kv, hkv, rfl⟩ := hm
    obtain ⟨h1, h2⟩ := dedupe_entry arr kv hkv
    rw [h2]
    exact h1

/-! ## The admin guard of the client -/

/-- C25: `RequireAdmin` renders its children exactly when the token is not
empty, the stored user is there and its `role` is the string "admin"; in
every other case it renders nothing (`null`). -/
theorem RequireAdmin_renders_children_iff_admin {α : Type} (token : String)
    (user : Option JsObj) (children : α) :
    (isLoggedIn token user = true ↔ token ≠ "" ∧ user ≠ none)
      ∧ (RequireAdmin token user children = some children
          ↔ isLoggedIn token user = true ∧ ∃ o, user = some o ∧ o.get "role" = .str "admin")
      ∧ (¬ (isLoggedIn token user = true ∧ ∃ o, user = some o ∧ o.get "role" = .str "admin")
          → RequireAdmin token user children = none) := by
  have hlog : isLoggedIn token user = true ↔ token ≠ "" ∧ user ≠ none := by
    unfold isLoggedIn
    cases user <;> simp
  have hrole : userRole user = .str "admin" ↔ ∃ o, user = some o ∧ o.get "role" = .str "admin" := by
    cases user with
    | none => simp [userRole]
    | some o => simp [userRole]
  have hrender : RequireAdmin token user children
      = if isLoggedIn token user = true ∧ userRole user = .str "admin" then some children
        else none := by
    unfold RequireAdmin
    by_cases h1 : isLoggedIn token user = true
    · by_cases h2 : userRole user = .str "admin"
      · simp [h1, h2]
      · simp [h1, h2]
    · simp [h1]
  refine ⟨hlog, ?_, ?_⟩
  · rw [hrender, ← hrole]
    by_cases h : isLoggedIn token user = true ∧ userRole user = .str "admin"
    · simp [h]
    · rw [if_neg h]
      simp [h]
  · intro h
    rw [hrender, ← hrole] at *
    rw [if_neg h]

/-! ## Steps of a recipe -/

theorem head_of_dropWhile_fixed (l : List Char) (h : l.dropWhile isJsSpace = l) (c : Char)
    (hc : l.head? = some c) : isJsSpace c = false := by
  cases l with
  | nil => simp at hc
  | cons a as =>
    simp only [List.head?_cons, Option.some.injEq] at hc
    subst hc
    by_contra hsp
    have hsp2 : isJsSpace a = true := by simpa using hsp
    have hlen := congrArg List.length h
    rw [List.dropWhile_cons_of_pos hsp2] at hlen
    have := (List.dropWhile_sublist (l := as) isJsSpace).length_le
    simp only [List.length_cons] at hlen
    omega

theorem getLast_trimEndChars (l : List Char) (c : Char)
    (hc : (trimEndChars l).getLast? = some c) : isJsSpace c = false := by
  induction l with
  | nil => simp [trimEndChars] at hc
  | cons a as ih =>
    by_cases hn : trimEndChars as = []
    · rw [trimEndChars_cons_of_nil a as hn] at hc
      by_cases ha : isJsSpace a = true
      · simp [ha] at hc
      · simp only [ha, Bool.false_eq_true, if_false, List.getLast?_singleton,
          Option.some.injEq] at hc
        subst hc
        simpa using ha
    · rw [trimEndChars_cons_of_ne a as hn] at hc
      cases hr : trimEndChars as with
      | nil => exact absurd hr hn
      | cons b bs =>
        rw [hr] at hc ih
        rw [List.getLast?_cons_cons] at hc
        exact ih hc

theorem jsTrim_ends (x : String) :
    (∀ c, (jsTrim x).data.head? = some c → isJsSpace c = false)
      ∧ (∀ c, (jsTrim x).data.getLast? = some c → isJsSpace c = false) := by
  constructor
  · intro c hc
    have hfix : (jsTrim x).data.dropWhile isJsSpace = (jsTrim x).data := by
      unfold jsTrim
      exact dropWhile_trimEndChars _ (dropWhile_dropWhile_space x.data)
    exact head_of_dropWhile_fixed _ hfix c hc
  · intro c hc
    unfold jsTrim at hc
    exact getLast_trimEndChars _ c hc

/-- C26: every step `parseInstructions` returns is a non-empty string whose
first and last characters are not white space (trimming it changes nothing),
and for a text that is not there or is empty the result is the empty
list. -/
theorem parseInstructions_steps_are_trimmed_and_nonempty (text : Option String) :
    (∀ s ∈ parseInstructions text,
        s ≠ "" ∧ jsTrim s = s
          ∧ (∀ c, s.data.head? = some c → isJsSpace c = false)
          ∧ (∀ c, s.data.getLast? = some c → isJsSpace c = false))
      ∧ parseInstructions none = []
      ∧ parseInstructions (some "") = [] := by
  refine ⟨?_, rfl, rfl⟩
  intro s hs
  unfold parseInstructions at hs
  cases text with
  | none => simp at hs
  | some t =>
    simp only at hs
    split at hs
    · simp at hs
    · rw [List.mem_filter, List.mem_map] at hs
      obtain ⟨⟨part, _, hpart⟩, hlen⟩ := hs
      subst hpart
      refine ⟨?_, jsTrim_idem _, (jsTrim_ends _).1, (jsTrim_ends _).2⟩
      intro h0
      rw [h0, jsLength_empty] at hlen
      simp at hlen

/-! ## Login validation and the reach of a failed signup -/

/-- On a body whose fields `String(...)` converts: a login whose email is
empty after trimming and lower-casing, or whose password is missing or empty,
is answered with status 400, and the controller makes no call at all and
leaves the collection as it was. -/
theorem login_invalid_is_400_without_store_access (L : Lib) (env : ProcessEnv) (cx : Ctx)
    (db : Db) (body : JsObj)
    (h : L.toLowerCase (jsTrim (strOrEmpty (body.get "email"))) = ""
      ∨ strOrEmpty (body.get "password") = "") :
    (login L env cx db body).status = some 400
      ∧ (login L env cx db body).ops = []
      ∧ (login L env cx db body).db = db := by
  unfold login normalizeEmail
  have h1 : (L.toLowerCase (jsTrim (strOrEmpty (body.get "email"))) == ""
      || strOrEmpty (body.get "password") == "") = true := by
    rcases h with h | h <;> simp [h]
  simp only [h1, if_true, Run.status, reply, and_self]

/-- C28, as the code has it: for a login body whose email and password
`String(...)` converts, if the email is empty after trimming and lower-casing
or the password is missing or empty, then the handler answers with status
400, makes no call at all (no lookup, no password comparison) and leaves the
collection as it was. -/
theorem loginRaw_invalid_is_400_without_store_access (L : Lib) (env : ProcessEnv) (cx : Ctx)
    (db : Db) (body : RawObj) (e p : String)
    (he : stringOrThrow (body.get "email") = .ok e)
    (hp : stringOrThrow (body.get "password") = .ok p)
    (h : L.toLowerCase (jsTrim e) = "" ∨ p = "") :
    (loginRaw L env cx db body).status = some 400
      ∧ (loginRaw L env cx db body).ops = []
      ∧ (loginRaw L env cx db body).db = db := by
  rw [loginRaw_of_convertible L env cx db body e p he hp]
  apply login_invalid_is_400_without_store_access
  rw [stringOrThrow_ok body "email" e he, stringOrThrow_ok body "password" p hp]
  exact h

/-- C28 at a concrete request: an email of blanks only. -/
theorem loginRaw_invalid_is_400_without_store_access_witness :
    (loginRaw demoLib demoEnv ⟨3000, "x", 9⟩ [demoUser]
        [("email", .plain (.str "   ")), ("password", .plain (.str "secret1"))]).status = some 400
      ∧ (loginRaw demoLib demoEnv ⟨3000, "x", 9⟩ [demoUser]
        [("email", .plain (.str "   ")), ("password", .plain (.str "secret1"))]).ops = []
      ∧ (loginRaw demoLib demoEnv ⟨3000, "x", 9⟩ [demoUser]
        [("email", .plain (.str "   ")), ("password", .plain (.str "secret1"))]).db
        = [demoUser] :=
  loginRaw_invalid_is_400_without_store_access demoLib demoEnv ⟨3000, "x", 9⟩ [demoUser]
    [("email", .plain (.str "   ")), ("password", .plain (.str "secret1"))] "   " "secret1"
    rfl rfl (Or.inl (by decide))

/-- C28 as stated fails: for the body `{ "email": { "toString": null } }` the
password is missing, yet `normalizeEmail` throws while converting the email,
the catch hands the error to `next`, and the client gets the error handler's
500, not a 400. -/
theorem loginRaw_unconvertible_email_is_500 :
    stringOrThrow (RawObj.get [("email", .unconvertible)] "password") = .ok ""
      ∧ (loginRaw demoLib demoEnv ⟨3000, "x", 9⟩ [demoUser]
          [("email", .unconvertible)]).outcome = .forwarded conversionError
      ∧ (loginRaw demoLib demoEnv ⟨3000, "x", 9⟩ [demoUser]
          [("email", .unconvertible)]).response = reply 500 "Server error."
      ∧ (loginRaw demoLib demoEnv ⟨3000, "x", 9⟩ [demoUser]
          [("email", .unconvertible)]).status ≠ some 400 := by
  refine ⟨rfl, rfl, rfl, by decide⟩

/-- C27, as the code has it: a signup that does not answer 201 leaves the
collection as it was, except when it fails at `signToken`, after
`User.create` has stored the record: then the error goes to `next` and the
new record stays in the collection. -/
theorem signup_failure_leaves_store_unless_token_fails (L : Lib) (env : ProcessEnv) (cx : Ctx)
    (db : Db) (body : JsObj) (h : (signup L env cx db body).status ≠ some 201) :
    (signup L env cx db body).db = db
      ∨ ∃ e, signToken L env cx.now cx.oid "user" = .error e
          ∧ (signup L env cx db body).outcome = .forwarded e
          ∧ (signup L env cx db body).db = db ++ [signupDoc L cx body] := by
  unfold signup at h ⊢
  simp only at h ⊢
  split
  · exact Or.inl rfl
  · split
    · exact Or.inl rfl
    · split
      · exact Or.inl rfl
      · split
        · exact Or.inl rfl
        · rename_i h1 h2 _ hf _ user db1 hc
          obtain ⟨hu, hd⟩ := create_ok _ _ _ _ _ _ _ hc
          have hu2 : user = signupDoc L cx body := by rw [hu]; rfl
          subst hu2
          right
          simp only [h1, h2, hf, hc] at h
          split
          · rename_i e he
            exact ⟨e, he, rfl, hd⟩
          · rename_i token ht
            rw [ht] at h
            simp [Run.status] at h

/-- C27 at a concrete request: a one-character username, rejected by the
schema, leaves the empty collection empty. -/
theorem signup_failure_leaves_store_unless_token_fails_witness :
    (signup demoLib demoEnv ⟨1000, "salt", 7⟩ []
        [("username", .str "a"), ("email", .str "a@ex.com"), ("password", .str "secret1")]).db
        = []
      ∨ ∃ e, signToken demoLib demoEnv 1000 7 "user" = .error e
          ∧ (signup demoLib demoEnv ⟨1000, "salt", 7⟩ []
              [("username", .str "a"), ("email", .str "a@ex.com"),
               ("password", .str "secret1")]).outcome = .forwarded e
          ∧ (signup demoLib demoEnv ⟨1000, "salt", 7⟩ []
              [("username", .str "a"), ("email", .str "a@ex.com"),
               ("password", .str "secret1")]).db
            = [] ++ [signupDoc demoLib ⟨1000, "salt", 7⟩
                [("username", .str "a"), ("email", .str "a@ex.com"),
                 ("password", .str "secret1")]] :=
  signup_failure_leaves_store_unless_token_fails demoLib demoEnv ⟨1000, "salt", 7⟩ []
    [("username", .str "a"), ("email", .str "a@ex.com"), ("password", .str "secret1")]
    (by decide)

/-- C27 as stated fails: with no secret in the environment a valid signup on
the empty collection is not answered 201 (the error of `signToken` goes to
`next`), yet the collection now holds the new record. -/
theorem signup_token_failure_keeps_record :
    (signup demoLib { JWT_SECRET := none, JWT_EXPIRES_IN := none } ⟨1000, "salt", 7⟩ []
        [("username", .str "bayla"), ("email", .str "Bay@Ex.com "),
         ("password", .str "secret1")]).status = none
      ∧ (signup demoLib { JWT_SECRET := none, JWT_EXPIRES_IN := none } ⟨1000, "salt", 7⟩ []
        [("username", .str "bayla"), ("email", .str "Bay@Ex.com "),
         ("password", .str "secret1")]).db = [demoUser]
      ∧ ([demoUser] : Db) ≠ [] := by
  refine ⟨by decide, by decide, by decide⟩

/-! ## Pages of the recipe list -/

theorem chunks_join {α : Type} (k : Nat) (l : List α) (h : l.length ≤ 12 * k) :
    ((List.range k).map (fun i => (l.drop (12 * i)).take 12)).flatten = l := by
  induction k generalizing l with
  | zero =>
    have : l = [] := List.eq_nil_of_length_eq_zero (by omega)
    subst this
    rfl
  | succ k ih =>
    rw [List.range_succ_eq_map, List.map_cons, List.flatten_cons, List.map_map]
    have hrest : (List.range k).map ((fun i => (l.drop (12 * i)).take 12) ∘ Nat.succ)
        = (List.range k).map (fun i => ((l.drop 12).drop (12 * i)).take 12) := by
      apply List.map_congr_left
      intro i _
      simp only [Function.comp, List.drop_drop]
      congr 2
      omega
    rw [hrest, ih (l.drop 12) (by rw [List.length_drop]; omega)]
    simp

theorem totalPages_bounds (n : Nat) :
    1 ≤ totalPages n ∧ (n : Int) ≤ 12 * totalPages n
      ∧ (n = 0 → totalPages n = 1) ∧ (0 < n → 12 * (totalPages n - 1) < (n : Int)) := by
  unfold totalPages
  refine ⟨by omega, by omega, ?_, by omega⟩
  intro h
  subst h
  rfl

theorem paginated_eq {α : Type} (recipes : List α) (i : Nat)
    (hi : (i : Int) < totalPages recipes.length) :
    paginated recipes ((i : Int) + 1) = (recipes.drop (12 * i)).take 12 := by
  obtain ⟨h1, h2, h3, h4⟩ := totalPages_bounds recipes.length
  have hsafe : safePage recipes.length ((i : Int) + 1) = (i : Int) + 1 := by
    unfold safePage
    omega
  have hstart : (i : Int) * 12 ≤ recipes.length := by
    rcases Nat.eq_zero_or_pos recipes.length with h0 | hpos
    · have := h3 h0
      omega
    · have := h4 hpos
      omega
  unfold paginated jsArraySlice PAGE_SIZE
  simp only [hsafe]
  have e1 : ¬ ((i : Int) + 1 - 1) * 12 < 0 := by omega
  have e2 : ¬ ((i : Int) + 1 - 1) * 12 + 12 < 0 := by omega
  simp only [e1, e2, if_false]
  have k1 : (min (((i : Int) + 1 - 1) * 12) (recipes.length : Int)).toNat = 12 * i := by omega
  have k2 : (min (((i : Int) + 1 - 1) * 12 + 12) (recipes.length : Int)
      - min (((i : Int) + 1 - 1) * 12) (recipes.length : Int)).toNat
      = min 12 (recipes.length - 12 * i) := by omega
  rw [k1, k2]
  rw [← List.take_take]
  congr 1
  apply List.take_of_length_le
  rw [List.length_drop]

/-- C29: for a recipe list of length `n` and a page `>= 1`, `totalPages` is
the larger of 1 and the ceiling of `n / 12` (it is 1 for the empty list and
otherwise the one number with `12 * (totalPages - 1) < n <= 12 * totalPages`),
`safePage` lies between 1 and `totalPages`, the slice shown has at most 12
items, and the slices of the pages 1, ..., `totalPages`, put one after
another, are the recipe list. -/
theorem pagination_partitions_recipes {α : Type} (recipes : List α) (page : Int)
    (hp : 1 ≤ page) :
    (recipes.length = 0 → totalPages recipes.length = 1)
      ∧ (0 < recipes.length →
          12 * (totalPages recipes.length - 1) < (recipes.length : Int)
            ∧ (recipes.length : Int) ≤ 12 * totalPages recipes.length)
      ∧ 1 ≤ safePage recipes.length page
      ∧ safePage recipes.length page ≤ totalPages recipes.length
      ∧ (paginated recipes page).length ≤ 12
      ∧ ((List.range (totalPages recipes.length).toNat).map
            (fun (i : Nat) => paginated recipes ((i : Int) + 1))).flatten = recipes := by
  obtain ⟨h1, h2, h3, h4⟩ := totalPages_bounds recipes.length
  refine ⟨h3, fun hpos => ⟨h4 hpos, h2⟩, ?_, ?_, ?_, ?_⟩
  · unfold safePage
    omega
  · unfold safePage
    omega
  · unfold paginated jsArraySlice PAGE_SIZE
    simp only
    rw [List.length_take]
    have hs : 1 ≤ safePage recipes.length page := by
      unfold safePage
      omega
    have e1 : ¬ (safePage recipes.length page - 1) * 12 < 0 := by omega
    have e2 : ¬ (safePage recipes.length page - 1) * 12 + 12 < 0 := by omega
    simp only [e1, e2, if_false]
    omega
  · have hmap : (List.range (totalPages recipes.length).toNat).map
          (fun (i : Nat) => paginated recipes ((i : Int) + 1))
        = (List.range (totalPages recipes.length).toNat).map
          (fun i => (recipes.drop (12 * i)).take 12) := by
      apply List.map_congr_left
      intro i hi
      rw [List.mem_range] at hi
      exact paginated_eq recipes i (by omega)
    rw [hmap]
    exact chunks_join _ recipes (by omega)

/-- C29 at a concrete list of thirteen recipes, shown on page 2. -/
theorem pagination_partitions_recipes_witness :
    (paginated [1, 2, 3, 4, 5, 6, 7, 8, 9, 10, 11, 12, 13] 2).length ≤ 12
      ∧ ((List.range (totalPages [1, 2, 3, 4, 5, 6, 7, 8, 9, 10, 11, 12, 13].length).toNat).map
            (fun (i : Nat) => paginated [1, 2, 3, 4, 5, 6, 7, 8, 9, 10, 11, 12, 13] ((i : Int) + 1))).flatten
          = [1, 2, 3, 4, 5, 6, 7, 8, 9, 10, 11, 12, 13] :=
  (pagination_partitions_recipes [1, 2, 3, 4, 5, 6, 7, 8, 9, 10, 11, 12, 13] 2
    (by decide)).2.2.2.2

/-! ## The video of a recipe -/

/-- C30 fails on the code: for a meal whose `strYoutube` is "v=abc", which
contains "v=" and is not an absolute URL, computing `youtubeId` throws the
`TypeError` of the URL constructor, whatever the browser does past the
scheme; a string without "v=" gives the empty id. -/
theorem youtubeId_throws_on_relative_url :
    (∀ B : Browser, youtubeId B (some "v=abc")
        = .error { name := "TypeError", message := "Invalid URL", code := none })
      ∧ (∀ B : Browser, youtubeId B (some "www.youtube.com/watch?v=abc")
        = .error { name := "TypeError", message := "Invalid URL", code := none })
      ∧ ∀ B : Browser, youtubeId B (some "") = .ok (some "") :=
  ⟨fun _ => rfl, fun _ => rfl, fun _ => rfl⟩

end Kusina
